import Mathlib

/-!
# RFD management: the email-driven proposal ingestion pipeline

A shallow embedding of the backend of the procurement tool:

* `controllers/proposalController.js` (`processVendorResponse`, `createProposal`,
  `compareProposals`, `updateProposalStatus`),
* `controllers/rfpController.js` (`createRFP`, `sendRFPToVendors`),
* `services/emailService.js` (`sendRFPEmail`, `fetchUnreadEmails`),
* `models/Proposal.js`, `models/RFP.js` (the schema validators).

Collections are lists of documents in natural order, `Model.findOne` is the first
document that satisfies the filter, JavaScript numbers are integers, dates are
millisecond counts, and everything the code reaches outside the repository (the
language's `RegExp`, the Gemini model, the clock, the ObjectId generator, the SMTP
transporter, the IMAP server) is an explicit parameter.
-/

namespace RFD

/-! ## Strings and the subject regular expression -/

/-- The characters matched by `\s` in a JavaScript regular expression; the same set is
stripped by `String.prototype.trim`. -/
def isWhiteSpace (c : Char) : Bool :=
  c.toNat == 9 || c.toNat == 10 || c.toNat == 11 || c.toNat == 12 || c.toNat == 13 ||
  c.toNat == 32 || c.toNat == 160 || c.toNat == 5760 ||
  (8192 ≤ c.toNat && c.toNat ≤ 8202) ||
  c.toNat == 8232 || c.toNat == 8233 || c.toNat == 8239 || c.toNat == 8287 ||
  c.toNat == 12288 || c.toNat == 65279

/-- The line terminators, which `.` does not match (no `s` flag). -/
def isLineTerminator (c : Char) : Bool :=
  c.toNat == 10 || c.toNat == 13 || c.toNat == 8232 || c.toNat == 8233

/-- `String.prototype.trim` on the characters of a string. -/
def trim (cs : List Char) : List Char :=
  ((cs.dropWhile isWhiteSpace).reverse.dropWhile isWhiteSpace).reverse

/-- The tail `(.+?)(?:\s|$)` of the subject regex, tried at the start of the input: the
lazy group takes one more character at a time (never a line terminator) until a
whitespace character or the end of the input follows. Returns capture group 1. -/
def matchLazyGroup : List Char → Option (List Char)
  | [] => none
  | c :: rest =>
    if isLineTerminator c then none
    else
      match rest with
      | [] => some [c]
      | d :: tl =>
        if isWhiteSpace d then some [c]
        else (matchLazyGroup (d :: tl)).map (fun g => c :: g)

/-- The part `\s*(.+?)(?:\s|$)`: the greedy `\s*` takes as much whitespace as it can and
gives characters back, one at a time, when the rest of the pattern fails. -/
def matchSpacesThenGroup : List Char → Option (List Char)
  | [] => matchLazyGroup []
  | c :: rest =>
    if isWhiteSpace c then
      match matchSpacesThenGroup rest with
      | some g => some g
      | none => matchLazyGroup (c :: rest)
    else matchLazyGroup (c :: rest)

/-- The literal `RFP:` under the `i` flag, at the start of the input; returns what
follows the marker. -/
def matchMarker : List Char → Option (List Char)
  | r :: f :: p :: c :: rest =>
    if (r == 'R' || r == 'r') && (f == 'F' || f == 'f') && (p == 'P' || p == 'p') && c == ':'
    then some rest else none
  | _ => none

/-- The regex `/RFP:\s*(.+?)(?:\s|$)/i` tried at the start of the input. -/
def matchHere (cs : List Char) : Option (List Char) :=
  (matchMarker cs).bind matchSpacesThenGroup

/-- Capture group 1 of `subject.match(/RFP:\s*(.+?)(?:\s|$)/i)`: the leftmost position at
which the regex matches wins; `none` is the `null` of a failed match. -/
def rfpMatch : List Char → Option (List Char)
  | [] => none
  | c :: rest =>
    match matchHere (c :: rest) with
    | some g => some g
    | none => rfpMatch rest

/-- The title lines 21-27 of `processVendorResponse` extract from a subject:
`rfpMatch[1].trim()`. -/
def extractTitle (subject : String) : Option String :=
  (rfpMatch subject.data).map (fun g => String.mk (trim g))

/-- The subject line `sendRFPEmail` builds for an RFP: the template literal
`RFP: ` followed by the title. -/
def rfpSubject (title : String) : String :=
  "RFP: " ++ title

/-! ## Documents -/

/-- A MongoDB ObjectId. -/
abbrev ObjectId := Nat

/-- A JavaScript `Date`, as milliseconds. -/
abbrev Date := Nat

/-- A vendor document, with the fields the controllers read. -/
structure Vendor where
  _id : ObjectId
  name : String
  email : String
  company : String
  deriving DecidableEq, Repr

/-- One line of `pricing.breakdown`. -/
structure BreakdownItem where
  item : Option String
  unitPrice : Option Int
  quantity : Option Int
  totalPrice : Option Int
  deriving DecidableEq, Repr

/-- The nested `pricing` path of a proposal; an absent `pricing` object is the record
with no `totalAmount`, which the `required` validator refuses in the same way. -/
structure Pricing where
  totalAmount : Option Int
  currency : Option String
  breakdown : List BreakdownItem
  deriving DecidableEq, Repr

/-- The nested `deliveryTimeline` path of a proposal. -/
structure ProposalTimeline where
  value : Option Int
  unit : Option String
  description : Option String
  deriving DecidableEq, Repr

/-- The object `compareProposals` serialises into `aiRecommendation`; the JSON text is
represented by the object it is the serialisation of. -/
structure Recommendation where
  priceScore : Option Int
  timelineScore : Option Int
  complianceScore : Option Int
  pros : List String
  cons : List String
  deriving DecidableEq, Repr

/-- An entry of `attachments`. -/
structure Attachment where
  filename : String
  path : String
  mimetype : String
  deriving DecidableEq, Repr

/-- A proposal document (`models/Proposal.js`). -/
structure Proposal where
  _id : ObjectId
  rfpId : ObjectId
  vendorId : ObjectId
  pricing : Pricing
  deliveryTimeline : ProposalTimeline
  paymentTerms : Option String
  warranty : Option String
  additionalTerms : Option String
  complianceScore : Option Int
  aiSummary : Option String
  aiScore : Option Int
  aiRecommendation : Option Recommendation
  rawEmailContent : Option String
  emailReceivedAt : Option Date
  attachments : List Attachment
  status : String
  createdAt : Date
  updatedAt : Date
  deriving DecidableEq, Repr

/-- An entry of `requirements` of an RFP. -/
structure Requirement where
  item : Option String
  quantity : Option Int
  specifications : Option String
  deriving DecidableEq, Repr

/-- The nested `budget` path of an RFP. -/
structure Budget where
  amount : Option Int
  currency : Option String
  deriving DecidableEq, Repr

/-- The nested `deliveryTimeline` path of an RFP. -/
structure RfpTimeline where
  value : Option Int
  unit : Option String
  deriving DecidableEq, Repr

/-- An entry of `sentToVendors`. -/
structure SentToVendor where
  vendorId : ObjectId
  sentAt : Date
  deriving DecidableEq, Repr

/-- An RFP document (`models/RFP.js`). -/
structure RFP where
  _id : ObjectId
  title : String
  description : String
  budget : Budget
  requirements : List Requirement
  deliveryTimeline : RfpTimeline
  paymentTerms : Option String
  warranty : Option String
  additionalTerms : Option String
  status : String
  sentToVendors : List SentToVendor
  rawInput : Option String
  createdAt : Date
  updatedAt : Date
  deriving DecidableEq, Repr

/-- The three collections. -/
structure Store where
  vendors : List Vendor
  rfps : List RFP
  proposals : List Proposal
  deriving DecidableEq, Repr

/-! ## Schema validation -/

/-- The validators `min: 0, max: 100` of `complianceScore` and `aiScore`: an absent
value passes. -/
def scoreInRange : Option Int → Bool
  | none => true
  | some v => decide (0 ≤ v) && decide (v ≤ 100)

/-- The `enum` of `proposalSchema.status`. -/
def proposalStatuses : List String :=
  ["received", "under-review", "accepted", "rejected"]

/-- The `enum` of `rfpSchema.status`. -/
def rfpStatuses : List String :=
  ["draft", "sent", "in-review", "completed", "cancelled"]

/-- The `enum` of `rfpSchema.deliveryTimeline.unit`. -/
def timelineUnits : List String :=
  ["days", "weeks", "months"]

/-- What Mongoose checks before it writes a proposal (`create`, `save`):
`pricing.totalAmount` is required, both scores lie in 0..100 when present, and the
status is one of the enum. `rfpId` and `vendorId`, also required, are present by type. -/
def Proposal.valid (p : Proposal) : Bool :=
  p.pricing.totalAmount.isSome && scoreInRange p.complianceScore &&
  scoreInRange p.aiScore && proposalStatuses.contains p.status

/-- What Mongoose checks before it writes an RFP: `title` and `description` are required
(the empty string does not pass), `budget.amount` is required, status and timeline unit
are in their enums. -/
def RFP.valid (r : RFP) : Bool :=
  r.title != "" && r.description != "" && r.budget.amount.isSome &&
  rfpStatuses.contains r.status &&
  (match r.deliveryTimeline.unit with
   | none => true
   | some u => timelineUnits.contains u)

/-- The write of `doc.save()` on a proposal loaded from the collection (`updateOne` on
`_id`): the stored document with the `_id` of `doc` takes the values of `doc`. -/
def saveProposal (doc : Proposal) (l : List Proposal) : List Proposal :=
  l.map (fun x => if x._id == doc._id then doc else x)

/-- The write of `rfp.save()` on an RFP loaded from the collection. -/
def saveRFP (doc : RFP) (l : List RFP) : List RFP :=
  l.map (fun x => if x._id == doc._id then doc else x)

/-! ## The outside world -/

/-- The `emailData` object `fetchUnreadEmails` hands to its callback. `sender` is the
field `from`; `subject`, `text`, `html` and `date` may be absent from a parsed mail.
The `attachments` field, which no code reads, is left out. -/
structure EmailData where
  sender : String
  subject : Option String
  text : Option String
  html : Option String
  date : Option Date
  deriving DecidableEq, Repr

/-- The second argument of `aiService.parseVendorResponse`. -/
structure RfpDetails where
  title : String
  description : String
  requirements : List Requirement
  budget : Budget
  deriving DecidableEq, Repr

/-- The object `aiService.parseVendorResponse` returns (the JSON the model wrote). -/
structure ParsedProposal where
  pricing : Pricing
  deliveryTimeline : ProposalTimeline
  paymentTerms : Option String
  warranty : Option String
  additionalTerms : Option String
  complianceScore : Option Int
  summary : Option String
  deriving DecidableEq, Repr

/-- What one call of the controller reads from outside the repository.
* `regExp pattern` is `new RegExp(pattern, 'i')` as a test on strings, `none` when the
  constructor throws a SyntaxError;
* `parseVendorResponse` is the AI service, `none` when it throws;
* `now` is the clock and `newId` the ObjectId the driver generates for a new document. -/
structure Env where
  regExp : String → Option (String → Bool)
  parseVendorResponse : Option String → RfpDetails → Option ParsedProposal
  now : Date
  newId : ObjectId

/-! ## processVendorResponse -/

/-- How a run of `processVendorResponse` ended. Every exit but `created` and `updated`
is an early `return` or the `catch` block. -/
inductive Outcome where
  | vendorNotFound
  | subjectMissing
  | titleNotExtracted
  | titleNotARegExp
  | rfpNotFound
  | parserFailed
  | proposalRejected
  | rfpRejected
  | created
  | updated
  deriving DecidableEq, Repr

/-- A run that reached its last line without an exception. -/
def Outcome.succeeded : Outcome → Bool
  | .created => true
  | .updated => true
  | _ => false

/-- A run whose proposal write (`save` or `create`) was accepted. -/
def Outcome.proposalWritten : Outcome → Bool
  | .created => true
  | .updated => true
  | .rfpRejected => true
  | _ => false

/-- The store after a run, how the run ended, and the calls made to the AI parser. -/
structure Result where
  store : Store
  outcome : Outcome
  aiCalls : List (Option String × RfpDetails)

/-- The expression `emailData.text || emailData.html`. -/
def emailContent (em : EmailData) : Option String :=
  match em.text with
  | some t => if t != "" then some t else em.html
  | none => em.html

/-- The object literal of lines 38-43. -/
def rfpDetails (rfp : RFP) : RfpDetails :=
  { title := rfp.title, description := rfp.description,
    requirements := rfp.requirements, budget := rfp.budget }

/-- Line 13: `Vendor.findOne({ email: emailData.from })`. -/
def findVendor (s : Store) (em : EmailData) : Option Vendor :=
  s.vendors.find? (fun v => v.email == em.sender)

/-- Lines 21-28 up to the query: the subject is matched (a missing subject makes
`.match` throw), the group is trimmed, and the title becomes a regular expression. -/
def titleRegExp (env : Env) (em : EmailData) : Except Outcome (String → Bool) :=
  match em.subject with
  | none => .error .subjectMissing
  | some subject =>
    match extractTitle subject with
    | none => .error .titleNotExtracted
    | some rfpTitle =>
      match env.regExp rfpTitle with
      | none => .error .titleNotARegExp
      | some re => .ok re

/-- Lines 12-33: the vendor by sender address, then the RFP by title. -/
def correlate (env : Env) (s : Store) (em : EmailData) : Except Outcome (Vendor × RFP) :=
  match findVendor s em with
  | none => .error .vendorNotFound
  | some vendor =>
    match titleRegExp env em with
    | .error o => .error o
    | .ok re =>
      match s.rfps.find? (fun r => re r.title) with
      | none => .error .rfpNotFound
      | some rfp => .ok (vendor, rfp)

/-- The filter of line 47: `{ rfpId: rfp._id, vendorId: vendor._id }`. -/
def isPair (rfpId vendorId : ObjectId) (p : Proposal) : Bool :=
  p.rfpId == rfpId && p.vendorId == vendorId

/-- Lines 54-62 and the `pre('save')` hook: the assignments to the existing proposal. -/
def applyParsed (parsed : ParsedProposal) (em : EmailData) (now : Date) (p : Proposal) :
    Proposal :=
  { p with
    pricing := parsed.pricing
    deliveryTimeline := parsed.deliveryTimeline
    paymentTerms := parsed.paymentTerms
    warranty := parsed.warranty
    additionalTerms := parsed.additionalTerms
    complianceScore := parsed.complianceScore
    aiSummary := parsed.summary
    rawEmailContent := emailContent em
    emailReceivedAt := em.date
    updatedAt := now }

/-- Lines 68-81: the document given to `Proposal.create`, with the schema defaults of
the paths the call leaves out. -/
def newProposal (env : Env) (rfp : RFP) (vendor : Vendor) (parsed : ParsedProposal)
    (em : EmailData) : Proposal :=
  { _id := env.newId
    rfpId := rfp._id
    vendorId := vendor._id
    pricing := parsed.pricing
    deliveryTimeline := parsed.deliveryTimeline
    paymentTerms := parsed.paymentTerms
    warranty := parsed.warranty
    additionalTerms := parsed.additionalTerms
    complianceScore := parsed.complianceScore
    aiSummary := parsed.summary
    aiScore := none
    aiRecommendation := none
    rawEmailContent := emailContent em
    emailReceivedAt := em.date
    attachments := []
    status := "received"
    createdAt := env.now
    updatedAt := env.now }

/-- Lines 46-83: create or update. `none` is a write Mongoose refused (the validation
error lands in the `catch`); otherwise the proposals afterwards and whether the
proposal was created. -/
def upsertProposal (env : Env) (rfp : RFP) (vendor : Vendor) (parsed : ParsedProposal)
    (em : EmailData) (proposals : List Proposal) : Option (List Proposal × Outcome) :=
  match proposals.find? (isPair rfp._id vendor._id) with
  | some existingProposal =>
    let doc := applyParsed parsed em env.now existingProposal
    if doc.valid then some (saveProposal doc proposals, .updated) else none
  | none =>
    let doc := newProposal env rfp vendor parsed em
    if doc.valid then some (proposals ++ [doc], .created) else none

/-- Lines 85-89: the status change of the correlated RFP. `none` is a refused write. -/
def updateRfpStatus (env : Env) (rfp : RFP) (rfps : List RFP) : Option (List RFP) :=
  if rfp.status == "sent" then
    let doc := { rfp with status := "in-review", updatedAt := env.now }
    if doc.valid then some (saveRFP doc rfps) else none
  else some rfps

/-- The function `processVendorResponse` of `controllers/proposalController.js`. -/
def processVendorResponse (env : Env) (s : Store) (em : EmailData) : Result :=
  match correlate env s em with
  | .error o => { store := s, outcome := o, aiCalls := [] }
  | .ok (vendor, rfp) =>
    let call := (emailContent em, rfpDetails rfp)
    match env.parseVendorResponse call.1 call.2 with
    | none => { store := s, outcome := .parserFailed, aiCalls := [call] }
    | some parsedProposal =>
      match upsertProposal env rfp vendor parsedProposal em s.proposals with
      | none => { store := s, outcome := .proposalRejected, aiCalls := [call] }
      | some (proposals, written) =>
        match updateRfpStatus env rfp s.rfps with
        | none =>
          { store := { s with proposals := proposals }, outcome := .rfpRejected,
            aiCalls := [call] }
        | some rfps =>
          { store := { s with proposals := proposals, rfps := rfps }, outcome := written,
            aiCalls := [call] }

/-! ## compareProposals -/

/-- An entry of `vendorScores` in the answer of the comparison model. -/
structure VendorScore where
  vendorName : String
  overallScore : Option Int
  priceScore : Option Int
  timelineScore : Option Int
  complianceScore : Option Int
  pros : List String
  cons : List String
  deriving DecidableEq, Repr

/-- The object `aiService.compareProposalsAndRecommend` returns. -/
structure Comparison where
  overallRecommendation : Option String
  vendorScores : List VendorScore
  keyFindings : List String
  riskFactors : List String
  deriving DecidableEq, Repr

/-- The first argument of `aiService.compareProposalsAndRecommend` (lines 166-172). -/
structure ComparisonDetails where
  title : String
  description : String
  budget : Budget
  requirements : List Requirement
  deliveryTimeline : RfpTimeline
  deriving DecidableEq, Repr

/-- An element of `proposalsData`, what the comparison prompt shows of a proposal. -/
structure ProposalData where
  vendorName : String
  vendorCompany : String
  totalAmount : Option Int
  deliveryTimeline : ProposalTimeline
  paymentTerms : Option String
  warranty : Option String
  complianceScore : Option Int
  summary : Option String
  deriving DecidableEq, Repr

/-- A proposal after `.populate('vendorId', ...)`: the document and the vendor its
`vendorId` refers to, `none` (JavaScript `null`) when no vendor has that `_id`. -/
abbrev PopulatedProposal := Proposal × Option Vendor

/-- Lines 154-155: `Proposal.find({ rfpId }).populate('vendorId', ...)`. -/
def populatedProposals (s : Store) (rfpId : ObjectId) : List PopulatedProposal :=
  (s.proposals.filter (fun p => p.rfpId == rfpId)).map
    (fun p => (p, s.vendors.find? (fun v => v._id == p.vendorId)))

/-- The `proposals.map` at the head of `compareProposalsAndRecommend`: reading
`p.vendorId.name` of a proposal whose vendor is `null` throws (`none`). -/
def proposalsData : List PopulatedProposal → Option (List ProposalData)
  | [] => some []
  | (p, vendor) :: rest =>
    match vendor with
    | none => none
    | some v =>
      match proposalsData rest with
      | none => none
      | some data =>
        some ({ vendorName := v.name, vendorCompany := v.company,
                totalAmount := p.pricing.totalAmount,
                deliveryTimeline := p.deliveryTimeline, paymentTerms := p.paymentTerms,
                warranty := p.warranty, complianceScore := p.complianceScore,
                summary := p.aiSummary } :: data)

/-- The callback of line 178, `p => p.vendorId.name === vendorScore.vendorName`. The loop
runs only after `proposalsData` succeeded, when no vendor is `null`. -/
def hasVendorName (name : String) (pv : PopulatedProposal) : Bool :=
  match pv.2 with
  | some v => v.name == name
  | none => false

/-- The mutation of the array element `Array.prototype.find` returned: the first element
that satisfies the test is the object changed. -/
def modifyFirst {α : Type} (p : α → Bool) (f : α → α) : List α → List α
  | [] => []
  | a :: rest => if p a then f a :: rest else a :: modifyFirst p f rest

/-- Lines 180-187 and the `pre('save')` hook: the assignments to a scored proposal. -/
def applyScore (vendorScore : VendorScore) (now : Date) (p : Proposal) : Proposal :=
  { p with
    aiScore := vendorScore.overallScore
    aiRecommendation := some
      { priceScore := vendorScore.priceScore
        timelineScore := vendorScore.timelineScore
        complianceScore := vendorScore.complianceScore
        pros := vendorScore.pros
        cons := vendorScore.cons }
    updatedAt := now }

/-- Lines 176-190: the loop over `comparison.vendorScores`, on the array `proposals` in
memory and the collection. The flag is `false` when a `save` was refused: the loop
stops there, and the writes made before it stay. -/
def scoreProposals (now : Date) :
    List VendorScore → List PopulatedProposal → List Proposal →
      Bool × List PopulatedProposal × List Proposal
  | [], proposals, stored => (true, proposals, stored)
  | vendorScore :: rest, proposals, stored =>
    match proposals.find? (hasVendorName vendorScore.vendorName) with
    | none => scoreProposals now rest proposals stored
    | some (proposal, _) =>
      let doc := applyScore vendorScore now proposal
      let proposals1 :=
        modifyFirst (hasVendorName vendorScore.vendorName) (fun pv => (doc, pv.2)) proposals
      if doc.valid then scoreProposals now rest proposals1 (saveProposal doc stored)
      else (false, proposals1, stored)

/-- The object literal of lines 166-172. -/
def comparisonDetails (rfp : RFP) : ComparisonDetails :=
  { title := rfp.title, description := rfp.description, budget := rfp.budget,
    requirements := rfp.requirements, deliveryTimeline := rfp.deliveryTimeline }

/-- The comparison model behind `aiService.compareProposalsAndRecommend`; `none` when
the call or the parsing of its answer throws. -/
abbrev ComparisonModel := ComparisonDetails → List ProposalData → Option Comparison

/-- The store after `compareProposals`, the HTTP status of the response, and the calls
made to the comparison model. -/
structure CompareResult where
  store : Store
  status : Nat
  aiCalls : List (ComparisonDetails × List ProposalData)

/-- An id as a request carries it (a route parameter, a value of the body): a string
Mongoose casts to an ObjectId, or a string it cannot cast. Every query that takes such a
string throws a CastError, which the handler's `catch` turns into a 500 response. -/
inductive RequestId where
  | objectId (id : ObjectId)
  | malformed (raw : String)
  deriving DecidableEq, Repr

/-- Lines 146-203 of `compareProposals` for a route parameter that is the ObjectId
`rfpId`. -/
def compareProposalsById (ai : ComparisonModel) (now : Date) (s : Store) (rfpId : ObjectId) :
    CompareResult :=
  match s.rfps.find? (fun r => r._id == rfpId) with
  | none => { store := s, status := 404, aiCalls := [] }
  | some rfp =>
    let proposals := populatedProposals s rfpId
    if proposals.length = 0 then { store := s, status := 404, aiCalls := [] }
    else
      match proposalsData proposals with
      | none => { store := s, status := 500, aiCalls := [] }
      | some data =>
        let details := comparisonDetails rfp
        match ai details data with
        | none => { store := s, status := 500, aiCalls := [(details, data)] }
        | some comparison =>
          match scoreProposals now comparison.vendorScores proposals s.proposals with
          | (true, _, stored) =>
            { store := { s with proposals := stored }, status := 200,
              aiCalls := [(details, data)] }
          | (false, _, stored) =>
            { store := { s with proposals := stored }, status := 500,
              aiCalls := [(details, data)] }

/-- The handler `compareProposals` of `controllers/proposalController.js`; the argument
is `req.params.rfpId`. On a parameter that is no ObjectId `RFP.findById` throws, and the
`catch` block answers 500. -/
def compareProposals (ai : ComparisonModel) (now : Date) (s : Store) (rfpId : RequestId) :
    CompareResult :=
  match rfpId with
  | .malformed _ => { store := s, status := 500, aiCalls := [] }
  | .objectId id => compareProposalsById ai now s id

/-! ## createProposal and updateProposalStatus -/

/-- The body of a `createProposal` request, cast to the schema: every path may be
absent. -/
structure ProposalBody where
  rfpId : Option ObjectId
  vendorId : Option ObjectId
  pricing : Pricing
  deliveryTimeline : ProposalTimeline
  paymentTerms : Option String
  warranty : Option String
  additionalTerms : Option String
  complianceScore : Option Int
  aiSummary : Option String
  aiScore : Option Int
  aiRecommendation : Option Recommendation
  rawEmailContent : Option String
  emailReceivedAt : Option Date
  attachments : List Attachment
  status : Option String
  createdAt : Option Date
  deriving DecidableEq, Repr

/-- The handler `createProposal`: `Proposal.create(req.body)` with the schema defaults
(`status`, `createdAt`), the required `rfpId` and `vendorId`, the validators and the
`pre('save')` hook. Returns the store and the HTTP status. -/
def createProposal (now : Date) (newId : ObjectId) (s : Store) (body : ProposalBody) :
    Store × Nat :=
  match body.rfpId, body.vendorId with
  | some rfpId, some vendorId =>
    let doc : Proposal :=
      { _id := newId, rfpId := rfpId, vendorId := vendorId, pricing := body.pricing,
        deliveryTimeline := body.deliveryTimeline, paymentTerms := body.paymentTerms,
        warranty := body.warranty, additionalTerms := body.additionalTerms,
        complianceScore := body.complianceScore, aiSummary := body.aiSummary,
        aiScore := body.aiScore, aiRecommendation := body.aiRecommendation,
        rawEmailContent := body.rawEmailContent, emailReceivedAt := body.emailReceivedAt,
        attachments := body.attachments, status := body.status.getD "received",
        createdAt := body.createdAt.getD now, updatedAt := now }
    if doc.valid then ({ s with proposals := s.proposals ++ [doc] }, 201) else (s, 500)
  | _, _ => (s, 500)

/-- The handler `updateProposalStatus`:
`Proposal.findByIdAndUpdate(id, { status }, { new: true, runValidators: true })`. The
update validators check a given status against the enum before the query runs; an
absent status is an empty update. -/
def updateProposalStatus (s : Store) (id : ObjectId) (status : Option String) :
    Store × Nat :=
  match status with
  | some st =>
    if proposalStatuses.contains st then
      match s.proposals.find? (fun p => p._id == id) with
      | none => (s, 404)
      | some _ =>
        ({ s with proposals :=
            s.proposals.map (fun p => if p._id == id then { p with status := st } else p) },
         200)
    else (s, 500)
  | none =>
    match s.proposals.find? (fun p => p._id == id) with
    | none => (s, 404)
    | some _ => (s, 200)

/-- The range invariant of the stored scores: each proposal's `complianceScore` and
`aiScore`, when present, lie between 0 and 100. -/
def scoresWithinRange (proposals : List Proposal) : Prop :=
  ∀ p ∈ proposals, scoreInRange p.complianceScore = true ∧ scoreInRange p.aiScore = true

/-! ## createRFP -/

/-- A JSON value, what `JSON.parse` makes of the answer of the model. -/
inductive Json where
  | null
  | bool (b : Bool)
  | num (n : Int)
  | str (s : String)
  | arr (items : List Json)
  | obj (fields : List (String × Json))

/-- A JavaScript object as its own properties in insertion order. -/
abbrev JsObject := List (String × Json)

/-- The property read `o[key]`; `none` is `undefined`. -/
def getProp (o : JsObject) (key : String) : Option Json :=
  (o.find? (fun kv => kv.1 == key)).map (fun kv => kv.2)

/-- A property definition `key: value` that follows earlier properties in an object
literal: a key that is already there keeps its place and takes the new value, a new key
goes to the end. -/
def setProp (o : JsObject) (key : String) (value : Json) : JsObject :=
  if o.any (fun kv => kv.1 == key) then
    o.map (fun kv => if kv.1 == key then (key, value) else kv)
  else o ++ [(key, value)]

/-- Lines 22-26: the object literal
`{ ...parsedRFP, rawInput: naturalLanguageInput, status: 'draft' }` given to `RFP.create`.
The answer of the model is taken to be a JSON object, as the prompt requires. -/
def rfpCreateArgument (parsedRFP : JsObject) (naturalLanguageInput : String) : JsObject :=
  setProp (setProp parsedRFP "rawInput" (.str naturalLanguageInput)) "status" (.str "draft")

/-- What one call of `createRFP` reads from outside the repository.
* `parseRFPFromNaturalLanguage` is the AI service, `none` when it throws;
* `create` is `RFP.create` on its argument: Mongoose casts the object to `rfpSchema`,
  fills in the defaults, runs the validators and inserts the document; `none` when it
  throws. -/
structure RfpEnv where
  parseRFPFromNaturalLanguage : String → Option JsObject
  create : JsObject → Option RFP

/-- The store after `createRFP`, the HTTP status and the `success` flag of the response,
the inputs given to the AI service, and the objects given to `RFP.create`. -/
structure CreateRfpResult where
  store : Store
  status : Nat
  success : Bool
  aiCalls : List String
  createCalls : List JsObject

/-- The handler `createRFP` of `controllers/rfpController.js`; the argument is
`req.body.naturalLanguageInput`. -/
def createRFP (env : RfpEnv) (s : Store) (naturalLanguageInput : Option String) :
    CreateRfpResult :=
  match naturalLanguageInput with
  | none => { store := s, status := 400, success := false, aiCalls := [], createCalls := [] }
  | some input =>
    if input = "" then
      { store := s, status := 400, success := false, aiCalls := [], createCalls := [] }
    else
      match env.parseRFPFromNaturalLanguage input with
      | none =>
        { store := s, status := 500, success := false, aiCalls := [input], createCalls := [] }
      | some parsedRFP =>
        match env.create (rfpCreateArgument parsedRFP input) with
        | none =>
          { store := s, status := 500, success := false, aiCalls := [input],
            createCalls := [rfpCreateArgument parsedRFP input] }
        | some rfp =>
          { store := { s with rfps := s.rfps ++ [rfp] }, status := 201, success := true,
            aiCalls := [input], createCalls := [rfpCreateArgument parsedRFP input] }

/-- A path of type `String` read off an object given to `RFP.create`: absent, or the
string; the outer `none` stands for a value of another type. -/
def stringPath (o : JsObject) (key : String) : Option (Option String) :=
  match getProp o key with
  | none => some none
  | some (.str v) => some (some v)
  | some _ => none

/-- A path of type `Number` read off an object given to `RFP.create`. -/
def numberPath (o : JsObject) (key : String) : Option (Option Int) :=
  match getProp o key with
  | none => some none
  | some (.num v) => some (some v)
  | some _ => none

/-- A nested path read off an object given to `RFP.create`; absent is the empty object. -/
def objectPath (o : JsObject) (key : String) : Option JsObject :=
  match getProp o key with
  | none => some []
  | some (.obj fields) => some fields
  | some _ => none

/-- An element of `requirements` read off a JSON value. -/
def requirementOf : Json → Option Requirement
  | .obj fields =>
    match stringPath fields "item", numberPath fields "quantity",
      stringPath fields "specifications" with
    | some item, some quantity, some specifications =>
      some { item := item, quantity := quantity, specifications := specifications }
    | _, _, _ => none
  | _ => none

/-- The path `requirements` read off an object given to `RFP.create`. -/
def requirementsPath (o : JsObject) : Option (List Requirement) :=
  match getProp o "requirements" with
  | none => some []
  | some (.arr items) => items.mapM requirementOf
  | some _ => none

/-- A database for `RfpEnv.create` that follows `rfpSchema` (`models/RFP.js`) on the
objects whose values have the types of their paths and that have no `sentToVendors`,
and refuses all others: `title` is trimmed, `budget.currency`, `deliveryTimeline.unit`,
`paymentTerms` and `status` take their defaults when absent, `createdAt` and `updatedAt`
are the time of the call, and the document is stored when it passes the validators. -/
def schemaCreate (newId : ObjectId) (now : Date) (o : JsObject) : Option RFP :=
  match stringPath o "title", stringPath o "description", objectPath o "budget",
    requirementsPath o, objectPath o "deliveryTimeline", stringPath o "paymentTerms",
    stringPath o "warranty", stringPath o "additionalTerms", stringPath o "status",
    stringPath o "rawInput", getProp o "sentToVendors" with
  | some title, some description, some budget, some requirements, some timeline,
    some paymentTerms, some warranty, some additionalTerms, some status, some rawInput,
    none =>
    match numberPath budget "amount", stringPath budget "currency",
      numberPath timeline "value", stringPath timeline "unit" with
    | some amount, some currency, some value, some timelineUnit =>
      if RFP.valid
          (RFP.mk newId (String.mk (trim (title.getD "").data)) (description.getD "")
            (Budget.mk amount (some (currency.getD "USD"))) requirements
            (RfpTimeline.mk value (some (timelineUnit.getD "days")))
            (some (paymentTerms.getD "Net 30")) warranty additionalTerms
            (status.getD "draft") [] rawInput now now) then
        some
          (RFP.mk newId (String.mk (trim (title.getD "").data)) (description.getD "")
            (Budget.mk amount (some (currency.getD "USD"))) requirements
            (RfpTimeline.mk value (some (timelineUnit.getD "days")))
            (some (paymentTerms.getD "Net 30")) warranty additionalTerms
            (status.getD "draft") [] rawInput now now)
      else none
    | _, _, _, _ => none
  | _, _, _, _, _, _, _, _, _, _, _ => none

/-! ## sendRFPToVendors -/

/-- An element of `emailResults` (lines 129-135 and 142-148). -/
structure EmailResult where
  vendorId : ObjectId
  vendorName : String
  email : String
  status : String
  sentAt : Option Date
  error : Option String
  deriving DecidableEq, Repr

/-- What one call of `sendRFPToVendors` reads from outside the repository.
* `sendRFPEmail vendorEmail vendorName rfp` is the email service (the mail is formatted
  and handed to the SMTP transporter); `.error message` when it throws;
* `now` is the clock behind `new Date()` and `Date.now()`. -/
structure SendEnv where
  sendRFPEmail : String → String → RFP → Except String Unit
  now : Date

/-- The body of a `sendRFPToVendors` request; both keys may be missing. -/
structure SendRequest where
  rfpId : Option RequestId
  vendorIds : Option (List RequestId)
  deriving DecidableEq, Repr

/-- The test `!rfpId` of line 97: the key is missing or the empty string. -/
def RequestId.missing : Option RequestId → Bool
  | none => true
  | some (.malformed raw) => raw == ""
  | some (.objectId _) => false

/-- Line 97: `!rfpId || !vendorIds || vendorIds.length === 0`. -/
def badRequest (req : SendRequest) : Bool :=
  RequestId.missing req.rfpId ||
  (match req.vendorIds with
   | none => true
   | some vendorIds => vendorIds.length == 0)

/-- The cast of the list under `$in` in line 112: the ObjectIds, or `none` (a CastError)
when an element is no ObjectId. -/
def castIds : List RequestId → Option (List ObjectId)
  | [] => some []
  | .objectId id :: rest =>
    match castIds rest with
    | some ids => some (id :: ids)
    | none => none
  | .malformed _ :: _ => none

/-- The arrays the loop of lines 125-150 fills, and the calls it made to the email
service (address and subject line of each mail). -/
structure SendLoopState where
  emailResults : List EmailResult
  sentToVendors : List SentToVendor
  mails : List (String × String)
  deriving DecidableEq, Repr

/-- Lines 125-150: the loop `for (const vendor of vendors)` with its `try`/`catch`. -/
def sendLoop (env : SendEnv) (rfp : RFP) : List Vendor → SendLoopState → SendLoopState
  | [], st => st
  | vendor :: rest, st =>
    match env.sendRFPEmail vendor.email vendor.name rfp with
    | .ok _ =>
      sendLoop env rfp rest
        { emailResults := st.emailResults ++
            [{ vendorId := vendor._id, vendorName := vendor.name, email := vendor.email,
               status := "sent", sentAt := some env.now, error := none }]
          sentToVendors := st.sentToVendors ++ [{ vendorId := vendor._id, sentAt := env.now }]
          mails := st.mails ++ [(vendor.email, rfpSubject rfp.title)] }
    | .error message =>
      sendLoop env rfp rest
        { emailResults := st.emailResults ++
            [{ vendorId := vendor._id, vendorName := vendor.name, email := vendor.email,
               status := "failed", sentAt := none, error := some message }]
          sentToVendors := st.sentToVendors
          mails := st.mails ++ [(vendor.email, rfpSubject rfp.title)] }

/-- Line 112: `Vendor.find({ _id: { $in: vendorIds } })`, the vendors of the collection,
in its order, whose `_id` is among `vendorIds`. -/
def findVendors (s : Store) (vendorIds : List ObjectId) : List Vendor :=
  s.vendors.filter (fun v => vendorIds.contains v._id)

/-- The store after `sendRFPToVendors`, the HTTP status of the response, the array
`emailResults` as the handler leaves it (the response carries it when the status is
200), and the calls made to the email service. -/
structure SendResult where
  store : Store
  status : Nat
  emailResults : List EmailResult
  mails : List (String × String)

/-- Lines 121-122: the two empty arrays the loop starts from. -/
def SendLoopState.empty : SendLoopState :=
  { emailResults := [], sentToVendors := [], mails := [] }

/-- Lines 153-154 and the `pre('save')` hook: the assignments to the RFP after the
loop. -/
def sentRfp (env : SendEnv) (rfp : RFP) (sentToVendors : List SentToVendor) : RFP :=
  { rfp with sentToVendors := rfp.sentToVendors ++ sentToVendors,
             status := "sent", updatedAt := env.now }

/-- Lines 112-164 of `sendRFPToVendors`, for the RFP `findById` found and the ObjectIds
of `vendorIds`. -/
def sendToFound (env : SendEnv) (s : Store) (rfp : RFP) (vendorIds : List ObjectId) :
    SendResult :=
  let vendors := findVendors s vendorIds
  if vendors.length = 0 then
    { store := s, status := 404, emailResults := [], mails := [] }
  else
    let st := sendLoop env rfp vendors SendLoopState.empty
    let doc := sentRfp env rfp st.sentToVendors
    if doc.valid then
      { store := { s with rfps := saveRFP doc s.rfps }, status := 200,
        emailResults := st.emailResults, mails := st.mails }
    else
      { store := s, status := 500, emailResults := st.emailResults, mails := st.mails }

/-- The handler `sendRFPToVendors` of `controllers/rfpController.js`. An `rfpId` that is
no ObjectId makes `RFP.findById` throw, a vendor id that is no ObjectId makes
`Vendor.find` throw; the `catch` block answers 500. -/
def sendRFPToVendors (env : SendEnv) (s : Store) (req : SendRequest) : SendResult :=
  if badRequest req then { store := s, status := 400, emailResults := [], mails := [] }
  else
    match req.rfpId, req.vendorIds with
    | some (.objectId rfpId), some vendorIds =>
      match s.rfps.find? (fun r => r._id == rfpId) with
      | none => { store := s, status := 404, emailResults := [], mails := [] }
      | some rfp =>
        match castIds vendorIds with
        | none => { store := s, status := 500, emailResults := [], mails := [] }
        | some ids => sendToFound env s rfp ids
    | _, _ => { store := s, status := 500, emailResults := [], mails := [] }

/-! ## Two callbacks of processVendorResponse at once -/

/-- What a run of `processVendorResponse` holds when its `Proposal.findOne` of line 47
has answered and its writes have not started. -/
structure Pending where
  vendor : Vendor
  rfp : RFP
  parsedProposal : ParsedProposal
  existingProposal : Option Proposal
  deriving DecidableEq, Repr

/-- Lines 12-50 of `processVendorResponse`: the reads, up to `Proposal.findOne`. Every
`await` in them lets another callback run; none of them writes. -/
def readPhase (env : Env) (s : Store) (em : EmailData) : Except Outcome Pending :=
  match correlate env s em with
  | .error o => .error o
  | .ok (vendor, rfp) =>
    match env.parseVendorResponse (emailContent em) (rfpDetails rfp) with
    | none => .error .parserFailed
    | some parsedProposal =>
      .ok { vendor := vendor, rfp := rfp, parsedProposal := parsedProposal,
            existingProposal := s.proposals.find? (isPair rfp._id vendor._id) }

/-- Lines 52-83 on what `Proposal.findOne` returned earlier, with the collection as it
is when the write runs. -/
def writeProposal (env : Env) (rfp : RFP) (vendor : Vendor) (parsed : ParsedProposal)
    (em : EmailData) (existingProposal : Option Proposal) (proposals : List Proposal) :
    Option (List Proposal × Outcome) :=
  match existingProposal with
  | some existing =>
    let doc := applyParsed parsed em env.now existing
    if doc.valid then some (saveProposal doc proposals, .updated) else none
  | none =>
    let doc := newProposal env rfp vendor parsed em
    if doc.valid then some (proposals ++ [doc], .created) else none

/-- Lines 52-89 of `processVendorResponse`: the writes, on the store as it is when they
run. -/
def writePhase (env : Env) (s : Store) (em : EmailData) (p : Pending) : Store :=
  match writeProposal env p.rfp p.vendor p.parsedProposal em p.existingProposal
      s.proposals with
  | none => s
  | some (proposals, _) =>
    match updateRfpStatus env p.rfp s.rfps with
    | none => { s with proposals := proposals }
    | some rfps => { s with proposals := proposals, rfps := rfps }

/-- The rest of a run after its reads: nothing when the reads ended the run. -/
def resume (env : Env) (s : Store) (em : EmailData) : Except Outcome Pending → Store
  | .error _ => s
  | .ok p => writePhase env s em p

/-- Two callbacks in the schedule in which both have read (each has the answer of its
`Proposal.findOne`) before either writes. -/
def processInterleaved (env1 env2 : Env) (s : Store) (a b : EmailData) : Store :=
  resume env2 (resume env1 s a (readPhase env1 s a)) b (readPhase env2 s b)

/-! ## fetchUnreadEmails: the event handlers -/

/-- The state of the promise `fetchUnreadEmails` returns. A settled promise ignores
every later `resolve` and `reject`. -/
inductive PromiseState where
  | pending
  | resolved
  | rejected
  deriving DecidableEq, Repr

/-- The events the IMAP connection, the fetch object, the mail parser and the timer can
deliver to the handlers `fetchUnreadEmails` registers. -/
inductive FetchEvent where
  | ready
  | openBox (err : Bool)
  | search (err : Bool) (results : Nat)
  | message (parsed : Option EmailData)
  | fetchError
  | fetchEnd
  | imapError (connReset : Bool)
  | imapEnd
  | timeout
  | close
  deriving DecidableEq, Repr

/-- The variables the handlers of `fetchUnreadEmails` share (`connectionClosed`,
`emails`, the promise, the timer) and which handlers can still run: `once` handlers and
callbacks run at most once, and a callback exists only after the call that takes it. -/
structure FetchState where
  connectionClosed : Bool
  promise : PromiseState
  emails : List EmailData
  endCalls : Nat
  timerArmed : Bool
  readyArmed : Bool
  openBoxArmed : Bool
  searchArmed : Bool
  fetchStarted : Bool
  fetchErrorArmed : Bool
  fetchEndArmed : Bool
  imapErrorArmed : Bool
  imapEndArmed : Bool
  deriving DecidableEq, Repr

/-- The state when `fetchUnreadEmails` has registered its handlers, armed the timer and
called `imap.connect()`. -/
def FetchState.init : FetchState :=
  { connectionClosed := false, promise := .pending, emails := [], endCalls := 0,
    timerArmed := true, readyArmed := true, openBoxArmed := false, searchArmed := false,
    fetchStarted := false, fetchErrorArmed := false, fetchEndArmed := false,
    imapErrorArmed := true, imapEndArmed := true }

/-- The call `resolve(...)`. -/
def FetchState.resolve (st : FetchState) : FetchState :=
  if st.promise = .pending then { st with promise := .resolved } else st

/-- The call `reject(err)`. -/
def FetchState.reject (st : FetchState) : FetchState :=
  if st.promise = .pending then { st with promise := .rejected } else st

/-- The block `if (!connectionClosed) { connectionClosed = true; imap.end(); reject(err); }`
of the `openBox`, `search` and fetch `error` handlers. -/
def FetchState.closeAndReject (st : FetchState) : FetchState :=
  if st.connectionClosed then st
  else FetchState.reject { st with connectionClosed := true, endCalls := st.endCalls + 1 }

/-- One handler of `fetchUnreadEmails` run on one event; an event whose handler is not
registered, or has already run, changes nothing. -/
def FetchState.step (st : FetchState) : FetchEvent → FetchState
  | .ready =>
    if st.readyArmed then { st with readyArmed := false, openBoxArmed := true } else st
  | .openBox err =>
    if st.openBoxArmed then
      let st1 := { st with openBoxArmed := false }
      if err then st1.closeAndReject else { st1 with searchArmed := true }
    else st
  | .search err results =>
    if st.searchArmed then
      let st1 := { st with searchArmed := false }
      if err then st1.closeAndReject
      else if results = 0 then
        FetchState.resolve
          (if st1.connectionClosed then st1
           else { st1 with connectionClosed := true, endCalls := st1.endCalls + 1 })
      else { st1 with fetchStarted := true, fetchErrorArmed := true, fetchEndArmed := true }
    else st
  | .message parsed =>
    if st.fetchStarted then
      match parsed with
      | none => st
      | some emailData => { st with emails := st.emails ++ [emailData] }
    else st
  | .fetchError =>
    if st.fetchErrorArmed then
      FetchState.closeAndReject { st with fetchErrorArmed := false }
    else st
  | .fetchEnd =>
    if st.fetchEndArmed then
      let st1 := { st with fetchEndArmed := false }
      if st1.connectionClosed then st1
      else { st1 with connectionClosed := true, endCalls := st1.endCalls + 1 }
    else st
  | .imapError connReset =>
    if st.imapErrorArmed then
      let st1 := { st with imapErrorArmed := false }
      if st1.connectionClosed then st1
      else if connReset then FetchState.resolve { st1 with connectionClosed := true }
      else FetchState.reject { st1 with connectionClosed := true }
    else st
  | .imapEnd =>
    if st.imapEndArmed then
      let st1 := { st with imapEndArmed := false }
      if st1.connectionClosed then st1
      else FetchState.resolve { st1 with connectionClosed := true }
    else st
  | .timeout =>
    if st.timerArmed then
      let st1 := { st with timerArmed := false }
      if st1.connectionClosed then st1
      else FetchState.resolve
        { st1 with connectionClosed := true, endCalls := st1.endCalls + 1 }
    else st
  | .close => { st with timerArmed := false }

/-- The handlers run on a sequence of events, in order. -/
def FetchState.run (st : FetchState) (events : List FetchEvent) : FetchState :=
  events.foldl FetchState.step st

/-- The course of events of a fetch of one unread message: the connection is ready, the
inbox opens, the search finds one message, the message is parsed, the fetch ends. -/
def oneMessageFetch (emailData : EmailData) : List FetchEvent :=
  [.ready, .openBox false, .search false 1, .message (some emailData), .fetchEnd]

/-! ## fetchUnreadEmails: the mailbox -/

/-- A message of the inbox: its `\Seen` flag and what `simpleParser` makes of it
(`none` when parsing fails). -/
structure Message where
  seen : Bool
  parsed : Option EmailData
  deriving DecidableEq, Repr

/-- The messages `imap.search(['UNSEEN'])` finds. -/
def unseenMessages (mailbox : List Message) : List Message :=
  mailbox.filter (fun m => !m.seen)

/-- The inbox after `imap.fetch(results, { bodies: '', markSeen: true })` on the unseen
messages: the server flags every fetched message as seen. -/
def fetchMarkSeen (mailbox : List Message) : List Message :=
  mailbox.map (fun m => { m with seen := true })

/-- The `emailData` objects handed to the callback: one for each fetched message that
`simpleParser` could parse. -/
def fetchedEmails (mailbox : List Message) : List EmailData :=
  (unseenMessages mailbox).filterMap (fun m => m.parsed)

/-- The callbacks of one fetch on the store, in the schedule in which each callback
completes before the next one starts; `world i` is the outside world the callback of the
`i`-th parsed message meets. -/
def processFetched (world : Nat → Env) (s : Store) : List EmailData → Store
  | [] => s
  | em :: rest =>
    processFetched (fun i => world (i + 1)) (processVendorResponse (world 0) s em).store rest

/-- One successful fetch with `processVendorResponse` as callback: the store and the
inbox afterwards. -/
def checkMailbox (world : Nat → Env) (s : Store) (mailbox : List Message) :
    Store × List Message :=
  (processFetched world s (fetchedEmails mailbox), fetchMarkSeen mailbox)

/-! ## Examples of the outside world -/

/-- Case-insensitive occurrence of `needle` in `hay`. -/
def occursIn (needle hay : List Char) : Bool :=
  hay.tails.any (fun t => (needle.map Char.toLower).isPrefixOf (t.map Char.toLower))

/-- An instance of `Env.regExp` for the examples. On a pattern made of ASCII letters,
digits and spaces `new RegExp(pattern, 'i')` tests for a case-insensitive occurrence of
the pattern; the examples use no other pattern, and this instance refuses them. -/
def literalRegExp (pattern : String) : Option (String → Bool) :=
  if pattern.data.all (fun c => c.isAlphanum || c == ' ') then
    some (fun text => occursIn pattern.data text.data)
  else none

/-- A vendor of the seed data. -/
def acme : Vendor :=
  { _id := 1, name := "Tech Solutions Ltd", email := "contact@techsolutions.com",
    company := "Tech Solutions Ltd" }

/-- An RFP that has been sent, with a one-word title. -/
def laptopsRfp : RFP :=
  { _id := 10, title := "Laptops", description := "Twenty laptops for the new office",
    budget := { amount := some 50000, currency := some "USD" },
    requirements := [{ item := some "Laptop", quantity := some 20,
                       specifications := some "16GB RAM" }],
    deliveryTimeline := { value := some 30, unit := some "days" },
    paymentTerms := some "Net 30", warranty := none, additionalTerms := none,
    status := "sent", sentToVendors := [{ vendorId := 1, sentAt := 1000 }],
    rawInput := some "I need 20 laptops", createdAt := 900, updatedAt := 1000 }

/-- A reply of the vendor to the RFP mail. -/
def laptopsReply : EmailData :=
  { sender := "contact@techsolutions.com", subject := some "Re: RFP: Laptops",
    text := some "We offer 20 laptops for 48000 USD, delivered in 3 weeks.",
    html := none, date := some 2000 }

/-- What the AI parser makes of `laptopsReply`. -/
def laptopsOffer : ParsedProposal :=
  { pricing := { totalAmount := some 48000, currency := some "USD", breakdown := [] },
    deliveryTimeline := { value := some 3, unit := some "weeks", description := none },
    paymentTerms := some "Net 30", warranty := some "1 year", additionalTerms := none,
    complianceScore := some 90, summary := some "20 laptops, 48000 USD, 3 weeks" }

/-- A store with the vendor, the RFP and no proposal yet. -/
def laptopsStore : Store :=
  { vendors := [acme], rfps := [laptopsRfp], proposals := [] }

/-- An outside world whose parser answers every mail with `laptopsOffer`. -/
def laptopsEnv : Env :=
  { regExp := literalRegExp, parseVendorResponse := fun _ _ => some laptopsOffer,
    now := 3000, newId := 100 }

/-- A second reply of the same vendor to the same RFP. -/
def laptopsSecondReply : EmailData :=
  { sender := "contact@techsolutions.com", subject := some "Re: RFP: Laptops",
    text := some "Revised offer: 45000 USD, we guarantee full compliance.",
    html := none, date := some 2500 }

/-- What the AI parser makes of `laptopsSecondReply`: a compliance score above the
schema maximum. -/
def laptopsOverscored : ParsedProposal :=
  { pricing := { totalAmount := some 45000, currency := some "USD", breakdown := [] },
    deliveryTimeline := { value := some 3, unit := some "weeks", description := none },
    paymentTerms := some "Net 45", warranty := some "2 years", additionalTerms := none,
    complianceScore := some 150, summary := some "20 laptops, 45000 USD" }

/-- An outside world whose parser answers `laptopsSecondReply` with `laptopsOverscored`
and every other mail with `laptopsOffer`. -/
def twoRepliesEnv : Env :=
  { regExp := literalRegExp,
    parseVendorResponse := fun content _ =>
      if content = laptopsSecondReply.text then some laptopsOverscored
      else some laptopsOffer,
    now := 3000, newId := 100 }

/-- A revised offer that passes the schema. -/
def laptopsRevised : ParsedProposal :=
  { pricing := { totalAmount := some 45000, currency := some "USD", breakdown := [] },
    deliveryTimeline := { value := some 2, unit := some "weeks", description := none },
    paymentTerms := some "Net 45", warranty := some "2 years", additionalTerms := none,
    complianceScore := some 95, summary := some "20 laptops, 45000 USD, 2 weeks" }

/-- An outside world, later than `laptopsEnv`, whose parser answers with
`laptopsRevised`. -/
def revisedEnv : Env :=
  { regExp := literalRegExp, parseVendorResponse := fun _ _ => some laptopsRevised,
    now := 4000, newId := 101 }

/-- The RFP `laptopsRfp` after its first proposal came in at time 3000. -/
def laptopsRfpInReview : RFP :=
  { laptopsRfp with status := "in-review", updatedAt := 3000 }

/-- An RFP with a two-word title. -/
def officeChairsRfp : RFP :=
  { laptopsRfp with _id := 11, title := "Office Chairs",
                    description := "Forty chairs for the new office" }

/-- A later RFP whose title starts with the same word. -/
def officeLaptopsRfp : RFP :=
  { laptopsRfp with _id := 12, title := "Office Laptops" }

/-- A store with both office RFPs. -/
def officeStore : Store :=
  { vendors := [acme], rfps := [officeChairsRfp, officeLaptopsRfp], proposals := [] }

/-- A reply that keeps the subject `sendRFPEmail` gave the mail for `officeLaptopsRfp`. -/
def officeLaptopsReply : EmailData :=
  { laptopsReply with subject := some (rfpSubject officeLaptopsRfp.title) }

/-- A proposal with its `updatedAt` timestamp blanked, to compare proposals up to that
timestamp. -/
def Proposal.ignoringUpdatedAt (p : Proposal) : Proposal :=
  { p with updatedAt := 0 }

/-- The outside world of a redelivery: the same `RegExp` and the same parser as
`laptopsEnv`, a later clock and another fresh ObjectId. -/
def laptopsEnvLater : Env :=
  { laptopsEnv with now := 5000, newId := 102 }

/-- A mail from an address no vendor has. -/
def strangerMail : EmailData :=
  { sender := "someone@elsewhere.org", subject := some "Re: RFP: Laptops",
    text := some "Our offer: 47000 USD.", html := none, date := some 2600 }

/-- An inbox with one unread message, `strangerMail`. -/
def strangerInbox : List Message :=
  [{ seen := false, parsed := some strangerMail }]

/-- An inbox with a read message and two unread ones: `strangerMail`, then
`laptopsReply`. -/
def mixedInbox : List Message :=
  [{ seen := true, parsed := some laptopsSecondReply },
   { seen := false, parsed := some strangerMail },
   { seen := false, parsed := some laptopsReply }]

/-- The handlers have closed the connection without settling the promise, and the
callbacks of `ready`, `openBox` and `search` are behind. -/
def FetchState.closedUnsettled (st : FetchState) : Bool :=
  st.connectionClosed && st.promise == .pending && !st.readyArmed && !st.openBoxArmed &&
  !st.searchArmed

/-- A store whose one proposal has both scores. -/
def scoredStore : Store :=
  { laptopsStore with
    proposals := [{ (newProposal laptopsEnv laptopsRfp acme laptopsOffer laptopsReply) with
                    aiScore := some 70 }] }

/-- The `aiScore` the loop of `compareProposals` leaves in the proposal it finds for a
vendor name: each entry with that name overwrites the score, in order. -/
def scoreAfter (name : String) (vendorScores : List VendorScore) (before : Option Int) :
    Option Int :=
  vendorScores.foldl (fun acc e => if e.vendorName = name then e.overallScore else acc) before

/-- A second vendor with the name of `acme`. -/
def acmeTwin : Vendor :=
  { _id := 2, name := "Tech Solutions Ltd", email := "sales@techsolutions.com",
    company := "Tech Solutions Ltd (EU)" }

/-- A store with one proposal of each of the two vendors for `laptopsRfp`. -/
def twinStore : Store :=
  { vendors := [acme, acmeTwin], rfps := [laptopsRfpInReview],
    proposals := [newProposal laptopsEnv laptopsRfp acme laptopsOffer laptopsReply,
                  newProposal revisedEnv laptopsRfp acmeTwin laptopsRevised
                    laptopsSecondReply] }

/-- An entry of `vendorScores` with the given name and overall score. -/
def scoreEntry (name : String) (score : Int) : VendorScore :=
  { vendorName := name, overallScore := some score, priceScore := some 50,
    timelineScore := some 50, complianceScore := some 50, pros := [], cons := [] }

/-- An answer of the comparison model with two entries for the same vendor name. -/
def twinComparison : Comparison :=
  { overallRecommendation := some "Choose Tech Solutions Ltd",
    vendorScores := [scoreEntry "Tech Solutions Ltd" 80, scoreEntry "Tech Solutions Ltd" 60],
    keyFindings := [], riskFactors := [] }

/-- A comparison model that answers with `twinComparison`. -/
def twinModel : ComparisonModel :=
  fun _ _ => some twinComparison

/-- What the comparison prompt shows of the proposals of `twinStore`. -/
def twinData : List ProposalData :=
  (proposalsData (populatedProposals twinStore 10)).getD []

/-- An answer of the RFP model that carries its own `status` and `rawInput`. -/
def sentAnswer : JsObject :=
  [("title", .str "Laptops"), ("status", .str "sent"),
   ("budget", .obj [("amount", .num 50000), ("currency", .str "USD")]),
   ("rawInput", .str "something else")]

/-- An outside world whose RFP model answers with `sentAnswer` and whose database
refuses every document. -/
def sentAnswerEnv : RfpEnv :=
  { parseRFPFromNaturalLanguage := fun _ => some sentAnswer, create := fun _ => none }

/-- An answer of the RFP model with every required path, a status and a `rawInput` of
its own, and blanks around the title. -/
def laptopsAnswer : JsObject :=
  [("title", .str " Laptops "), ("description", .str "Twenty laptops for the new office"),
   ("status", .str "sent"),
   ("budget", .obj [("amount", .num 50000)]),
   ("requirements", .arr [.obj [("item", .str "Laptop"), ("quantity", .num 20)]]),
   ("rawInput", .str "something else")]

/-- An outside world whose RFP model answers with `laptopsAnswer` and whose database is
`schemaCreate`, with 11 as the next id, at time 5000. -/
def laptopsDraftEnv : RfpEnv :=
  { parseRFPFromNaturalLanguage := fun _ => some laptopsAnswer,
    create := schemaCreate 11 5000 }

/-- The document `laptopsDraftEnv` stores for the request `I need 20 laptops`. -/
def laptopsDraft : RFP :=
  { _id := 11, title := "Laptops", description := "Twenty laptops for the new office",
    budget := { amount := some 50000, currency := some "USD" },
    requirements := [{ item := some "Laptop", quantity := some 20, specifications := none }],
    deliveryTimeline := { value := none, unit := some "days" },
    paymentTerms := some "Net 30", warranty := none, additionalTerms := none,
    status := "draft", sentToVendors := [],
    rawInput := some "I need 20 laptops", createdAt := 5000, updatedAt := 5000 }

/-- An email service that cannot reach the address of `acmeTwin`. -/
def flakyMail : SendEnv :=
  { sendRFPEmail := fun vendorEmail _ _ =>
      if vendorEmail = "sales@techsolutions.com" then .error "mailbox unavailable"
      else .ok (),
    now := 7000 }

/-- A request to send the RFP of `twinStore` to both of its vendors and to a vendor that
does not exist. -/
def twinRequest : SendRequest :=
  { rfpId := some (.objectId 10),
    vendorIds := some [.objectId 2, .objectId 99, .objectId 1] }

/-- A request whose `rfpId` is no ObjectId. -/
def malformedRfpRequest : SendRequest :=
  { rfpId := some (.malformed "abc"), vendorIds := some [.objectId 1] }

/-- Follows the spec's words: the input starts with the marker `RFP:` in any letter case,
followed by optional whitespace and at least one non-whitespace character; the result is
the maximal run of non-whitespace characters that follows. -/
def tokenAfterMarker (cs : List Char) : Option (List Char) :=
  match matchMarker cs with
  | none => none
  | some rest =>
    match rest.dropWhile isWhiteSpace with
    | [] => none
    | c :: tl => some ((c :: tl).takeWhile (fun x => !isWhiteSpace x))

/-- Follows the spec's words: the first whitespace-delimited word after the first marker
`RFP:` that is followed by optional whitespace and a non-whitespace character; `none`
when the subject contains no such marker. -/
def specFirstToken : List Char → Option (List Char)
  | [] => none
  | c :: rest =>
    match tokenAfterMarker (c :: rest) with
    | some t => some t
    | none => specFirstToken rest

/-- A reply whose subject ends right after the marker and a space. -/
def bareMarkerReply : EmailData :=
  { laptopsReply with subject := some "RFP: " }

/-! # Theorems -/

/-! ## Lemmas on the collections -/

theorem isPair_iff (r v : ObjectId) (p : Proposal) :
    isPair r v p = true ↔ p.rfpId = r ∧ p.vendorId = v := by
  simp [isPair]

theorem eq_of_mem_of_id_eq {l : List Proposal} (hnd : (l.map (fun p => p._id)).Nodup)
    {x e : Proposal} (hx : x ∈ l) (he : e ∈ l) (hid : x._id = e._id) : x = e :=
  List.inj_on_of_nodup_map hnd hx he hid

theorem saveProposal_eq_map {l : List Proposal} (hnd : (l.map (fun p => p._id)).Nodup)
    (doc e : Proposal) (he : e ∈ l) (hid : doc._id = e._id) :
    saveProposal doc l = l.map (fun x => if x = e then doc else x) := by
  unfold saveProposal
  apply List.map_congr_left
  intro x hx
  by_cases hxe : x = e
  · subst hxe
    simp [hid]
  · have hne : x._id ≠ doc._id := fun h => hxe (eq_of_mem_of_id_eq hnd hx he (h.trans hid))
    simp [hne, hxe]

theorem filter_replace_length (q : Proposal → Bool) (doc e : Proposal) (hq : q doc = q e)
    (l : List Proposal) :
    ((l.map (fun x => if x = e then doc else x)).filter q).length = (l.filter q).length := by
  induction l with
  | nil => rfl
  | cons a rest ih =>
    by_cases hae : a = e
    · subst hae
      cases hqa : q a <;> simp [List.filter_cons, hq, hqa, ih]
    · cases hqa : q a <;> simp [List.filter_cons, hae, hqa, ih]

theorem filter_replace_of_not (q : Proposal → Bool) (doc e : Proposal) (hd : q doc = false)
    (hqe : q e = false) (l : List Proposal) :
    (l.map (fun x => if x = e then doc else x)).filter q = l.filter q := by
  induction l with
  | nil => rfl
  | cons a rest ih =>
    by_cases hae : a = e
    · subst hae
      simp [List.filter_cons, hd, hqe, ih]
    · cases hqa : q a <;> simp [List.filter_cons, hae, hqa, ih]

theorem isPair_other {r v r0 v0 : ObjectId} (hne : (r, v) ≠ (r0, v0)) {p : Proposal}
    (hp : isPair r0 v0 p = true) : isPair r v p = false := by
  rw [isPair_iff] at hp
  cases h : isPair r v p
  · rfl
  · rw [isPair_iff] at h
    exact absurd (by rw [← h.1, ← h.2, hp.1, hp.2]) hne

theorem applyParsed_isPair (parsed : ParsedProposal) (em : EmailData) (now : Date)
    (r v : ObjectId) (p : Proposal) :
    isPair r v (applyParsed parsed em now p) = isPair r v p := rfl

/-- What `upsertProposal` does to the collection when its write is accepted. -/
theorem upsertProposal_spec (env : Env) (rfp : RFP) (vendor : Vendor)
    (parsed : ParsedProposal) (em : EmailData) (l l1 : List Proposal) (w : Outcome)
    (hnd : (l.map (fun p => p._id)).Nodup)
    (h : upsertProposal env rfp vendor parsed em l = some (l1, w)) :
    (l1.filter (isPair rfp._id vendor._id)).length
        = max 1 (l.filter (isPair rfp._id vendor._id)).length ∧
      ∀ r v, (r, v) ≠ (rfp._id, vendor._id) →
        l1.filter (isPair r v) = l.filter (isPair r v) := by
  unfold upsertProposal at h
  cases hf : l.find? (isPair rfp._id vendor._id) with
  | none =>
    rw [hf] at h
    simp only at h
    split at h
    · simp only [Option.some.injEq, Prod.mk.injEq] at h
      obtain ⟨rfl, -⟩ := h
      have hnone : l.filter (isPair rfp._id vendor._id) = [] := by
        rw [List.filter_eq_nil_iff]
        intro a ha
        have := List.find?_eq_none.mp hf a ha
        simpa using this
      have hdoc : isPair rfp._id vendor._id (newProposal env rfp vendor parsed em) = true := by
        simp [isPair, newProposal]
      refine ⟨?_, ?_⟩
      · simp [List.filter_append, hnone, List.filter_cons, hdoc]
      · intro r v hne
        simp [List.filter_append, List.filter_cons, isPair_other hne hdoc]
    · exact absurd h (by simp)
  | some e =>
    rw [hf] at h
    simp only at h
    split at h
    · simp only [Option.some.injEq, Prod.mk.injEq] at h
      obtain ⟨rfl, -⟩ := h
      have he : e ∈ l := List.mem_of_find?_eq_some hf
      have hpe : isPair rfp._id vendor._id e = true := List.find?_some hf
      rw [saveProposal_eq_map hnd (applyParsed parsed em env.now e) e he rfl]
      refine ⟨?_, ?_⟩
      · rw [filter_replace_length _ _ _ (applyParsed_isPair _ _ _ _ _ _)]
        have hmem : e ∈ l.filter (isPair rfp._id vendor._id) :=
          List.mem_filter.mpr ⟨he, hpe⟩
        have hpos : 0 < (l.filter (isPair rfp._id vendor._id)).length :=
          List.length_pos_of_mem hmem
        rw [max_eq_right hpos]
      · intro r v hne
        exact filter_replace_of_not _ _ _
          ((applyParsed_isPair _ _ _ _ _ _).trans (isPair_other hne hpe))
          (isPair_other hne hpe) l
    · exact absurd h (by simp)

theorem find?_saveProposal (q : Proposal → Bool) (doc e : Proposal) (hq : q doc = true)
    (hid : doc._id = e._id) (l : List Proposal) (hf : l.find? q = some e) :
    (saveProposal doc l).find? q = some doc := by
  induction l with
  | nil => simp at hf
  | cons a rest ih =>
    unfold saveProposal
    rw [List.map_cons]
    by_cases hida : a._id = doc._id
    · simp [hida, hq]
    · have hqa : q a = false := by
        cases hqa : q a
        · rfl
        · rw [List.find?_cons_of_pos _ hqa] at hf
          simp only [Option.some.injEq] at hf
          exact absurd (hf ▸ hid.symm) hida
      rw [List.find?_cons_of_neg _ (by simp [hqa])] at hf
      rw [if_neg (by simpa using hida), List.find?_cons_of_neg _ (by simp [hqa])]
      exact ih hf

/-- After an accepted `upsertProposal` the proposal `findOne` returns for the pair
carries the values of the parsed reply. -/
theorem upsertProposal_find (env : Env) (rfp : RFP) (vendor : Vendor)
    (parsed : ParsedProposal) (em : EmailData) (l l1 : List Proposal) (w : Outcome)
    (h : upsertProposal env rfp vendor parsed em l = some (l1, w)) :
    ∃ e, (l1.find? (isPair rfp._id vendor._id) = some (applyParsed parsed em env.now e)
          ∧ l.find? (isPair rfp._id vendor._id) = some e ∧ w = .updated) ∨
         (l1.find? (isPair rfp._id vendor._id) = some e ∧
          e = newProposal env rfp vendor parsed em ∧
          l.find? (isPair rfp._id vendor._id) = none ∧ w = .created) := by
  unfold upsertProposal at h
  cases hf : l.find? (isPair rfp._id vendor._id) with
  | none =>
    rw [hf] at h
    simp only at h
    split at h
    · simp only [Option.some.injEq, Prod.mk.injEq] at h
      obtain ⟨rfl, rfl⟩ := h
      refine ⟨newProposal env rfp vendor parsed em, Or.inr ⟨?_, rfl, rfl, rfl⟩⟩
      have hdoc : isPair rfp._id vendor._id (newProposal env rfp vendor parsed em) = true := by
        simp [isPair, newProposal]
      simp [List.find?_append, hf, hdoc]
    · exact absurd h (by simp)
  | some e =>
    rw [hf] at h
    simp only at h
    split at h
    · simp only [Option.some.injEq, Prod.mk.injEq] at h
      obtain ⟨rfl, rfl⟩ := h
      refine ⟨e, Or.inl ⟨?_, rfl, rfl⟩⟩
      exact find?_saveProposal _ _ e
        ((applyParsed_isPair _ _ _ _ _ _).trans (List.find?_some hf)) rfl l hf
    · exact absurd h (by simp)

/-! ## The paths through processVendorResponse -/

theorem processVendorResponse_uncorrelated (env : Env) (s : Store) (em : EmailData)
    (o : Outcome) (hcor : correlate env s em = .error o) :
    processVendorResponse env s em = { store := s, outcome := o, aiCalls := [] } := by
  simp [processVendorResponse, hcor]

theorem processVendorResponse_parserFailed (env : Env) (s : Store) (em : EmailData)
    (vendor : Vendor) (rfp : RFP) (hcor : correlate env s em = .ok (vendor, rfp))
    (hp : env.parseVendorResponse (emailContent em) (rfpDetails rfp) = none) :
    processVendorResponse env s em =
      { store := s, outcome := .parserFailed,
        aiCalls := [(emailContent em, rfpDetails rfp)] } := by
  simp [processVendorResponse, hcor, hp]

theorem processVendorResponse_proposalRejected (env : Env) (s : Store) (em : EmailData)
    (vendor : Vendor) (rfp : RFP) (parsed : ParsedProposal)
    (hcor : correlate env s em = .ok (vendor, rfp))
    (hp : env.parseVendorResponse (emailContent em) (rfpDetails rfp) = some parsed)
    (hu : upsertProposal env rfp vendor parsed em s.proposals = none) :
    processVendorResponse env s em =
      { store := s, outcome := .proposalRejected,
        aiCalls := [(emailContent em, rfpDetails rfp)] } := by
  simp [processVendorResponse, hcor, hp, hu]

theorem processVendorResponse_rfpRejected (env : Env) (s : Store) (em : EmailData)
    (vendor : Vendor) (rfp : RFP) (parsed : ParsedProposal) (l1 : List Proposal)
    (w : Outcome) (hcor : correlate env s em = .ok (vendor, rfp))
    (hp : env.parseVendorResponse (emailContent em) (rfpDetails rfp) = some parsed)
    (hu : upsertProposal env rfp vendor parsed em s.proposals = some (l1, w))
    (hr : updateRfpStatus env rfp s.rfps = none) :
    processVendorResponse env s em =
      { store := { s with proposals := l1 }, outcome := .rfpRejected,
        aiCalls := [(emailContent em, rfpDetails rfp)] } := by
  simp [processVendorResponse, hcor, hp, hu, hr]

theorem processVendorResponse_written (env : Env) (s : Store) (em : EmailData)
    (vendor : Vendor) (rfp : RFP) (parsed : ParsedProposal) (l1 : List Proposal)
    (w : Outcome) (rfps : List RFP) (hcor : correlate env s em = .ok (vendor, rfp))
    (hp : env.parseVendorResponse (emailContent em) (rfpDetails rfp) = some parsed)
    (hu : upsertProposal env rfp vendor parsed em s.proposals = some (l1, w))
    (hr : updateRfpStatus env rfp s.rfps = some rfps) :
    processVendorResponse env s em =
      { store := { s with proposals := l1, rfps := rfps }, outcome := w,
        aiCalls := [(emailContent em, rfpDetails rfp)] } := by
  simp [processVendorResponse, hcor, hp, hu, hr]

/-! ## Running processVendorResponse a second time -/

theorem correlate_congr (env1 env2 : Env) (s1 s2 : Store) (em : EmailData)
    (hre : env2.regExp = env1.regExp) (hv : s2.vendors = s1.vendors)
    (hr : s2.rfps = s1.rfps) : correlate env2 s2 em = correlate env1 s1 em := by
  simp [correlate, findVendor, titleRegExp, hre, hv, hr]

theorem correlate_ok (env : Env) (s : Store) (em : EmailData) (vendor : Vendor) (rfp : RFP)
    (h : correlate env s em = .ok (vendor, rfp)) :
    ∃ re, titleRegExp env em = .ok re ∧ findVendor s em = some vendor ∧
      s.rfps.find? (fun r => re r.title) = some rfp := by
  cases hv : findVendor s em with
  | none => simp [correlate, hv] at h
  | some v =>
    cases ht : titleRegExp env em with
    | error o => simp [correlate, hv, ht] at h
    | ok re =>
      cases hf : s.rfps.find? (fun r => re r.title) with
      | none => simp [correlate, hv, ht, hf] at h
      | some r =>
        simp only [correlate, hv, ht, hf, Except.ok.injEq, Prod.mk.injEq] at h
        exact ⟨re, rfl, by rw [h.1], by rw [hf, h.2]⟩

theorem find?_saveRFP (q : RFP → Bool) (doc e : RFP) (hq : q doc = true)
    (hid : doc._id = e._id) (l : List RFP) (hf : l.find? q = some e) :
    (saveRFP doc l).find? q = some doc := by
  induction l with
  | nil => simp at hf
  | cons a rest ih =>
    unfold saveRFP
    rw [List.map_cons]
    by_cases hida : a._id = doc._id
    · simp [hida, hq]
    · have hqa : q a = false := by
        cases hqa : q a
        · rfl
        · rw [List.find?_cons_of_pos _ hqa] at hf
          simp only [Option.some.injEq] at hf
          exact absurd (hf ▸ hid.symm) hida
      rw [List.find?_cons_of_neg _ (by simp [hqa])] at hf
      rw [if_neg (by simpa using hida), List.find?_cons_of_neg _ (by simp [hqa])]
      exact ih hf

theorem correlate_after_saveRFP (env1 env2 : Env) (s s2 : Store) (em : EmailData)
    (vendor : Vendor) (rfp doc : RFP) (h : correlate env1 s em = .ok (vendor, rfp))
    (hid : doc._id = rfp._id) (htitle : doc.title = rfp.title)
    (hre : env2.regExp = env1.regExp) (hv : s2.vendors = s.vendors)
    (hr : s2.rfps = saveRFP doc s.rfps) : correlate env2 s2 em = .ok (vendor, doc) := by
  obtain ⟨re, ht, hven, hf⟩ := correlate_ok env1 s em vendor rfp h
  have ht2 : titleRegExp env2 em = .ok re := by
    rw [← ht]; simp [titleRegExp, hre]
  have hven2 : findVendor s2 em = some vendor := by
    rw [← hven]; simp [findVendor, hv]
  have hq : (fun r : RFP => re r.title) doc = true := by
    have := List.find?_some hf
    simpa [htitle] using this
  have hf2 := find?_saveRFP (fun r => re r.title) doc rfp hq hid s.rfps hf
  simp only [correlate, hven2, ht2, hr, hf2]

theorem upsertProposal_rfp_id (env : Env) (rfp rfp2 : RFP) (vendor : Vendor)
    (parsed : ParsedProposal) (em : EmailData) (l : List Proposal)
    (hid : rfp2._id = rfp._id) :
    upsertProposal env rfp2 vendor parsed em l = upsertProposal env rfp vendor parsed em l := by
  simp [upsertProposal, newProposal, hid]

theorem applyParsed_valid (parsed : ParsedProposal) (em : EmailData) (n1 n2 : Date)
    (p : Proposal) :
    (applyParsed parsed em n2 p).valid = (applyParsed parsed em n1 p).valid := rfl

theorem newProposal_valid (env1 env2 : Env) (rfp : RFP) (vendor : Vendor)
    (parsed : ParsedProposal) (em : EmailData) :
    (newProposal env2 rfp vendor parsed em).valid
      = (newProposal env1 rfp vendor parsed em).valid := rfl

theorem upsertProposal_none_env (env1 env2 : Env) (rfp : RFP) (vendor : Vendor)
    (parsed : ParsedProposal) (em : EmailData) (l : List Proposal)
    (h : upsertProposal env1 rfp vendor parsed em l = none) :
    upsertProposal env2 rfp vendor parsed em l = none := by
  unfold upsertProposal at h ⊢
  cases hf : l.find? (isPair rfp._id vendor._id) with
  | none =>
    rw [hf] at h
    simp only at h ⊢
    rw [newProposal_valid env1 env2]
    split at h
    · exact absurd h (by simp)
    · rename_i hv
      rw [if_neg hv]
  | some e =>
    rw [hf] at h
    simp only at h ⊢
    rw [applyParsed_valid parsed em env1.now env2.now]
    split at h
    · exact absurd h (by simp)
    · rename_i hv
      rw [if_neg hv]

theorem updateRfpStatus_none_env (env1 env2 : Env) (rfp : RFP) (rfps1 rfps2 : List RFP)
    (h : updateRfpStatus env1 rfp rfps1 = none) : updateRfpStatus env2 rfp rfps2 = none := by
  unfold updateRfpStatus at h ⊢
  by_cases hs : (rfp.status == "sent") = true
  · rw [if_pos hs] at h ⊢
    simp only at h ⊢
    have hv : ({ rfp with status := "in-review", updatedAt := env2.now } : RFP).valid
        = ({ rfp with status := "in-review", updatedAt := env1.now } : RFP).valid := rfl
    rw [hv]
    split at h
    · exact absurd h (by simp)
    · rename_i hv1
      rw [if_neg hv1]
  · rw [if_neg hs] at h
    exact absurd h (by simp)

theorem updateRfpStatus_some (env : Env) (rfp : RFP) (rfps rfps1 : List RFP)
    (h : updateRfpStatus env rfp rfps = some rfps1) :
    (rfp.status = "sent" ∧
        rfps1 = saveRFP { rfp with status := "in-review", updatedAt := env.now } rfps) ∨
      (rfp.status ≠ "sent" ∧ rfps1 = rfps) := by
  unfold updateRfpStatus at h
  by_cases hs : (rfp.status == "sent") = true
  · rw [if_pos hs] at h
    simp only at h
    split at h
    · simp only [Option.some.injEq] at h
      exact Or.inl ⟨by simpa using hs, h.symm⟩
    · exact absurd h (by simp)
  · rw [if_neg hs] at h
    simp only [Option.some.injEq] at h
    exact Or.inr ⟨by simpa using hs, h.symm⟩

theorem updateRfpStatus_not_sent (env : Env) (rfp : RFP) (rfps : List RFP)
    (h : rfp.status ≠ "sent") : updateRfpStatus env rfp rfps = some rfps := by
  unfold updateRfpStatus
  rw [if_neg (by simpa using h)]

/-- A second accepted write of the same parsed reply changes the proposals in their
`updatedAt` only. -/
theorem upsertProposal_twice (env1 env2 : Env) (rfp : RFP) (vendor : Vendor)
    (parsed : ParsedProposal) (em : EmailData) (l l1 : List Proposal) (w : Outcome)
    (hfresh : env1.newId ∉ l.map (fun p => p._id))
    (h : upsertProposal env1 rfp vendor parsed em l = some (l1, w)) :
    ∃ l2, upsertProposal env2 rfp vendor parsed em l1 = some (l2, .updated) ∧
      l2.map Proposal.ignoringUpdatedAt = l1.map Proposal.ignoringUpdatedAt := by
  unfold upsertProposal at h
  cases hf : l.find? (isPair rfp._id vendor._id) with
  | none =>
    rw [hf] at h
    simp only at h
    split at h
    · rename_i hvalid
      simp only [Option.some.injEq, Prod.mk.injEq] at h
      obtain ⟨rfl, -⟩ := h
      have hdoc : isPair rfp._id vendor._id (newProposal env1 rfp vendor parsed em) = true := by
        simp [isPair, newProposal]
      have hfind : (l ++ [newProposal env1 rfp vendor parsed em]).find?
          (isPair rfp._id vendor._id) = some (newProposal env1 rfp vendor parsed em) := by
        simp [List.find?_append, hf, hdoc]
      have hvalid2 : (applyParsed parsed em env2.now
          (newProposal env1 rfp vendor parsed em)).valid = true := hvalid
      refine ⟨saveProposal (applyParsed parsed em env2.now
          (newProposal env1 rfp vendor parsed em))
          (l ++ [newProposal env1 rfp vendor parsed em]), ?_, ?_⟩
      · unfold upsertProposal
        rw [hfind]
        simp only
        rw [if_pos hvalid2]
      · unfold saveProposal
        rw [List.map_map]
        apply List.map_congr_left
        intro x hx
        rcases List.mem_append.mp hx with hx | hx
        · have hne : x._id ≠ env1.newId := by
            intro hxe
            exact hfresh (hxe ▸ List.mem_map_of_mem (fun p => p._id) hx)
          have hne2 : x._id ≠ (applyParsed parsed em env2.now
              (newProposal env1 rfp vendor parsed em))._id := hne
          simp [hne2]
        · rw [List.mem_singleton] at hx
          subst hx
          simp [Proposal.ignoringUpdatedAt, applyParsed, newProposal]
    · exact absurd h (by simp)
  | some e =>
    rw [hf] at h
    simp only at h
    split at h
    · rename_i hvalid
      simp only [Option.some.injEq, Prod.mk.injEq] at h
      obtain ⟨rfl, -⟩ := h
      have hfind := find?_saveProposal (isPair rfp._id vendor._id)
        (applyParsed parsed em env1.now e) e
        ((applyParsed_isPair _ _ _ _ _ _).trans (List.find?_some hf)) rfl l hf
      have hvalid2 : (applyParsed parsed em env2.now
          (applyParsed parsed em env1.now e)).valid = true := hvalid
      refine ⟨saveProposal (applyParsed parsed em env2.now
          (applyParsed parsed em env1.now e))
          (saveProposal (applyParsed parsed em env1.now e) l), ?_, ?_⟩
      · unfold upsertProposal
        rw [hfind]
        simp only
        rw [if_pos hvalid2]
      · unfold saveProposal
        rw [List.map_map, List.map_map, List.map_map]
        apply List.map_congr_left
        intro x _
        by_cases hxe : x._id = e._id
        · have h1 : x._id = (applyParsed parsed em env1.now e)._id := hxe
          simp [h1, Proposal.ignoringUpdatedAt, applyParsed]
        · have h1 : x._id ≠ (applyParsed parsed em env1.now e)._id := hxe
          have h2 : x._id ≠ (applyParsed parsed em env2.now
              (applyParsed parsed em env1.now e))._id := hxe
          simp [h1, h2]
    · exact absurd h (by simp)

/-! ## Claims on processVendorResponse -/

/-- C1. `processVendorResponse` never duplicates a proposal: on a collection whose
`_id`s are distinct, when the vendor is found, the RFP is correlated, the parser
succeeds and the proposal write is accepted, the number of proposals stored for the
(RFP, vendor) pair afterwards is the maximum of 1 and the number before, and the
proposals of every other (RFP, vendor) pair are the same as before. -/
theorem processVendorResponse_no_duplicate (env : Env) (s : Store) (em : EmailData)
    (vendor : Vendor) (rfp : RFP)
    (hids : (s.proposals.map (fun p => p._id)).Nodup)
    (hcor : correlate env s em = .ok (vendor, rfp))
    (hwritten : (processVendorResponse env s em).outcome.proposalWritten = true) :
    ((processVendorResponse env s em).store.proposals.filter
        (isPair rfp._id vendor._id)).length
      = max 1 (s.proposals.filter (isPair rfp._id vendor._id)).length ∧
    ∀ r v, (r, v) ≠ (rfp._id, vendor._id) →
      (processVendorResponse env s em).store.proposals.filter (isPair r v)
        = s.proposals.filter (isPair r v) := by
  cases hp : env.parseVendorResponse (emailContent em) (rfpDetails rfp) with
  | none =>
    rw [processVendorResponse_parserFailed env s em vendor rfp hcor hp] at hwritten
    exact absurd hwritten (by simp [Outcome.proposalWritten])
  | some parsed =>
    cases hu : upsertProposal env rfp vendor parsed em s.proposals with
    | none =>
      rw [processVendorResponse_proposalRejected env s em vendor rfp parsed hcor hp hu]
        at hwritten
      exact absurd hwritten (by simp [Outcome.proposalWritten])
    | some lw =>
      obtain ⟨l1, w⟩ := lw
      have hspec := upsertProposal_spec env rfp vendor parsed em s.proposals l1 w hids hu
      cases hr : updateRfpStatus env rfp s.rfps with
      | none =>
        rw [processVendorResponse_rfpRejected env s em vendor rfp parsed l1 w hcor hp hu hr]
        exact hspec
      | some rfps =>
        rw [processVendorResponse_written env s em vendor rfp parsed l1 w rfps hcor hp hu hr]
        exact hspec

/-- C1 at `laptopsReply` on `laptopsStore`: the first reply creates the one proposal of
the pair. -/
theorem processVendorResponse_no_duplicate_witness :
    (laptopsStore.proposals.map (fun p => p._id)).Nodup ∧
    correlate laptopsEnv laptopsStore laptopsReply = .ok (acme, laptopsRfp) ∧
    ((processVendorResponse laptopsEnv laptopsStore laptopsReply).store.proposals.filter
        (isPair laptopsRfp._id acme._id)).length = 1 :=
  ⟨by decide, by rfl,
   (processVendorResponse_no_duplicate laptopsEnv laptopsStore laptopsReply acme laptopsRfp
      (by decide) (by rfl) (by rfl)).1⟩

/-- C2, as stated, fails: the second reply parses successfully, but its compliance score
of 150 does not pass the schema, the write is refused, and the pair's proposal keeps the
values of the first reply. -/
theorem processVendorResponse_last_write_wins_counterexample :
    correlate twoRepliesEnv laptopsStore laptopsReply = .ok (acme, laptopsRfp) ∧
    twoRepliesEnv.parseVendorResponse (emailContent laptopsReply) (rfpDetails laptopsRfp)
      = some laptopsOffer ∧
    correlate twoRepliesEnv (processVendorResponse twoRepliesEnv laptopsStore laptopsReply).store
      laptopsSecondReply
      = .ok (acme, laptopsRfpInReview) ∧
    twoRepliesEnv.parseVendorResponse (emailContent laptopsSecondReply)
      (rfpDetails laptopsRfpInReview) = some laptopsOverscored ∧
    ((processVendorResponse twoRepliesEnv
        (processVendorResponse twoRepliesEnv laptopsStore laptopsReply).store
        laptopsSecondReply).store.proposals.find? (isPair laptopsRfp._id acme._id)).map
        (fun p => (p.complianceScore, p.paymentTerms, p.emailReceivedAt))
      = some (some 90, some "Net 30", some 2000) ∧
    (laptopsOverscored.complianceScore, laptopsOverscored.paymentTerms,
      laptopsSecondReply.date) = (some 150, some "Net 45", some 2500) :=
  ⟨rfl, rfl, rfl, rfl, rfl, rfl⟩

/-- C2, amended. Last write wins when the second write is accepted: for every store
state and every two replies A then B, if B (processed after A) correlates to the
(RFP, vendor) pair, B parses successfully and B's proposal write is accepted by the
schema, then after `processVendorResponse(A)` followed by `processVendorResponse(B)` the
proposal `findOne` returns for the pair has pricing, deliveryTimeline, paymentTerms,
warranty, additionalTerms, complianceScore, aiSummary, rawEmailContent and
emailReceivedAt all equal to the values derived from B. -/
theorem processVendorResponse_last_write_wins (envA envB : Env) (s : Store)
    (a b : EmailData) (vendor : Vendor) (rfp : RFP) (parsedB : ParsedProposal)
    (hcor : correlate envB (processVendorResponse envA s a).store b = .ok (vendor, rfp))
    (hparse : envB.parseVendorResponse (emailContent b) (rfpDetails rfp) = some parsedB)
    (hwritten : (processVendorResponse envB (processVendorResponse envA s a).store
        b).outcome.proposalWritten = true) :
    ∃ p, (processVendorResponse envB (processVendorResponse envA s a).store
            b).store.proposals.find? (isPair rfp._id vendor._id) = some p ∧
      p.pricing = parsedB.pricing ∧
      p.deliveryTimeline = parsedB.deliveryTimeline ∧
      p.paymentTerms = parsedB.paymentTerms ∧
      p.warranty = parsedB.warranty ∧
      p.additionalTerms = parsedB.additionalTerms ∧
      p.complianceScore = parsedB.complianceScore ∧
      p.aiSummary = parsedB.summary ∧
      p.rawEmailContent = emailContent b ∧
      p.emailReceivedAt = b.date := by
  generalize (processVendorResponse envA s a).store = s1 at hcor hwritten ⊢
  cases hu : upsertProposal envB rfp vendor parsedB b s1.proposals with
  | none =>
    rw [processVendorResponse_proposalRejected envB s1 b vendor rfp parsedB hcor hparse hu]
      at hwritten
    exact absurd hwritten (by simp [Outcome.proposalWritten])
  | some lw =>
    obtain ⟨l1, w⟩ := lw
    have hfind : ∃ p, l1.find? (isPair rfp._id vendor._id) = some p ∧
        p.pricing = parsedB.pricing ∧
        p.deliveryTimeline = parsedB.deliveryTimeline ∧
        p.paymentTerms = parsedB.paymentTerms ∧
        p.warranty = parsedB.warranty ∧
        p.additionalTerms = parsedB.additionalTerms ∧
        p.complianceScore = parsedB.complianceScore ∧
        p.aiSummary = parsedB.summary ∧
        p.rawEmailContent = emailContent b ∧
        p.emailReceivedAt = b.date := by
      obtain ⟨e, h | h⟩ := upsertProposal_find envB rfp vendor parsedB b s1.proposals l1 w hu
      · exact ⟨_, h.1, rfl, rfl, rfl, rfl, rfl, rfl, rfl, rfl, rfl⟩
      · obtain ⟨h1, rfl, -⟩ := h
        exact ⟨_, h1, rfl, rfl, rfl, rfl, rfl, rfl, rfl, rfl, rfl⟩
    cases hr : updateRfpStatus envB rfp s1.rfps with
    | none =>
      rw [processVendorResponse_rfpRejected envB s1 b vendor rfp parsedB l1 w hcor hparse hu hr]
      exact hfind
    | some rfps =>
      rw [processVendorResponse_written envB s1 b vendor rfp parsedB l1 w rfps hcor hparse hu hr]
      exact hfind

/-- C2 (amended) at `laptopsReply` followed by `laptopsSecondReply`, parsed into
`laptopsRevised`: the pair's proposal carries the values of the second reply. -/
theorem processVendorResponse_last_write_wins_witness :
    correlate revisedEnv (processVendorResponse laptopsEnv laptopsStore laptopsReply).store
      laptopsSecondReply = .ok (acme, laptopsRfpInReview) ∧
    ((processVendorResponse revisedEnv
        (processVendorResponse laptopsEnv laptopsStore laptopsReply).store
        laptopsSecondReply).store.proposals.find? (isPair laptopsRfp._id acme._id)).map
        (fun p => (p.complianceScore, p.paymentTerms, p.emailReceivedAt))
      = some (some 95, some "Net 45", some 2500) := by
  obtain ⟨p, hp, -, -, hpay, -, -, hc, -, -, hd⟩ :=
    processVendorResponse_last_write_wins laptopsEnv revisedEnv laptopsStore
      laptopsReply laptopsSecondReply acme laptopsRfpInReview laptopsRevised rfl rfl rfl
  refine ⟨rfl, ?_⟩
  have hp1 : (processVendorResponse revisedEnv
        (processVendorResponse laptopsEnv laptopsStore laptopsReply).store
        laptopsSecondReply).store.proposals.find? (isPair laptopsRfp._id acme._id)
      = some p := hp
  rw [hp1, Option.map_some', hpay, hc, hd]
  rfl

/-- C3. The subject round trip fails on a title of two words: from the subject
`sendRFPEmail` builds for the title `Office Laptops`, `processVendorResponse` extracts
`Office`, and a reply that keeps that subject is correlated with the first RFP whose
title contains `Office`, here `Office Chairs`, not with the RFP the mail was sent for. -/
theorem extractTitle_rfpSubject_two_words :
    extractTitle (rfpSubject "Office Laptops") = some "Office" ∧
    extractTitle (rfpSubject "Office Laptops") ≠ some "Office Laptops" ∧
    correlate laptopsEnv officeStore officeLaptopsReply = .ok (acme, officeChairsRfp) ∧
    officeChairsRfp._id ≠ officeLaptopsRfp._id :=
  ⟨by decide, by decide, rfl, by decide⟩

/-- C4. `processVendorResponse` is idempotent on redelivery: for every store state and
every email, when the second run meets the same `RegExp` and a parser that returns the
same result for the same input (the clock and the generated ObjectId may differ, the
ObjectId of the first run being fresh), processing the email twice leaves the same
proposals up to their `updatedAt` timestamps, and the very same RFPs and vendors, as
processing it once. -/
theorem processVendorResponse_idempotent (env1 env2 : Env) (s : Store) (em : EmailData)
    (hre : env2.regExp = env1.regExp)
    (hparse : env2.parseVendorResponse = env1.parseVendorResponse)
    (hfresh : env1.newId ∉ s.proposals.map (fun p => p._id)) :
    (processVendorResponse env2 (processVendorResponse env1 s em).store em).store.proposals.map
        Proposal.ignoringUpdatedAt
      = (processVendorResponse env1 s em).store.proposals.map Proposal.ignoringUpdatedAt ∧
    (processVendorResponse env2 (processVendorResponse env1 s em).store em).store.rfps
      = (processVendorResponse env1 s em).store.rfps ∧
    (processVendorResponse env2 (processVendorResponse env1 s em).store em).store.vendors
      = (processVendorResponse env1 s em).store.vendors := by
  cases hc : correlate env1 s em with
  | error o =>
    rw [processVendorResponse_uncorrelated env1 s em o hc]
    have hc2 : correlate env2 s em = .error o := by
      rw [correlate_congr env1 env2 s s em hre rfl rfl, hc]
    rw [processVendorResponse_uncorrelated env2 s em o hc2]
    exact ⟨rfl, rfl, rfl⟩
  | ok vr =>
    obtain ⟨vendor, rfp⟩ := vr
    have hc2 : correlate env2 s em = .ok (vendor, rfp) := by
      rw [correlate_congr env1 env2 s s em hre rfl rfl, hc]
    cases hp : env1.parseVendorResponse (emailContent em) (rfpDetails rfp) with
    | none =>
      rw [processVendorResponse_parserFailed env1 s em vendor rfp hc hp]
      rw [processVendorResponse_parserFailed env2 s em vendor rfp hc2 (by rw [hparse, hp])]
      exact ⟨rfl, rfl, rfl⟩
    | some parsed =>
      have hp2 : env2.parseVendorResponse (emailContent em) (rfpDetails rfp) = some parsed := by
        rw [hparse, hp]
      cases hu : upsertProposal env1 rfp vendor parsed em s.proposals with
      | none =>
        rw [processVendorResponse_proposalRejected env1 s em vendor rfp parsed hc hp hu]
        rw [processVendorResponse_proposalRejected env2 s em vendor rfp parsed hc2 hp2
          (upsertProposal_none_env env1 env2 rfp vendor parsed em s.proposals hu)]
        exact ⟨rfl, rfl, rfl⟩
      | some lw =>
        obtain ⟨l1, w⟩ := lw
        obtain ⟨l2, hu2, hl2⟩ :=
          upsertProposal_twice env1 env2 rfp vendor parsed em s.proposals l1 w hfresh hu
        cases hr : updateRfpStatus env1 rfp s.rfps with
        | none =>
          rw [processVendorResponse_rfpRejected env1 s em vendor rfp parsed l1 w hc hp hu hr]
          rw [processVendorResponse_rfpRejected env2 { s with proposals := l1 } em vendor rfp
            parsed l2 .updated
            (by rw [correlate_congr env1 env2 s { s with proposals := l1 } em hre rfl rfl, hc])
            hp2 hu2 (updateRfpStatus_none_env env1 env2 rfp s.rfps s.rfps hr)]
          exact ⟨hl2, rfl, rfl⟩
        | some rfps1 =>
          rw [processVendorResponse_written env1 s em vendor rfp parsed l1 w rfps1 hc hp hu hr]
          rcases updateRfpStatus_some env1 rfp s.rfps rfps1 hr with ⟨-, hsave⟩ | ⟨hns, rfl⟩
          · have hc3 : correlate env2 { s with proposals := l1, rfps := rfps1 } em
                = .ok (vendor, { rfp with status := "in-review", updatedAt := env1.now }) :=
              correlate_after_saveRFP env1 env2 s { s with proposals := l1, rfps := rfps1 } em
                vendor rfp { rfp with status := "in-review", updatedAt := env1.now } hc rfl rfl
                hre rfl hsave
            have hu3 : upsertProposal env2
                { rfp with status := "in-review", updatedAt := env1.now } vendor parsed em l1
                = some (l2, .updated) :=
              (upsertProposal_rfp_id env2 rfp _ vendor parsed em l1 rfl).trans hu2
            rw [processVendorResponse_written env2 { s with proposals := l1, rfps := rfps1 } em
              vendor { rfp with status := "in-review", updatedAt := env1.now } parsed l2
              .updated rfps1 hc3 hp2 hu3
              (updateRfpStatus_not_sent env2 _ rfps1 (by show "in-review" ≠ "sent"; decide))]
            exact ⟨hl2, rfl, rfl⟩
          · rw [processVendorResponse_written env2 { s with proposals := l1, rfps := s.rfps } em
              vendor rfp parsed l2 .updated s.rfps
              (by rw [correlate_congr env1 env2 s { s with proposals := l1, rfps := s.rfps } em
                    hre rfl rfl, hc])
              hp2 hu2 (updateRfpStatus_not_sent env2 rfp s.rfps hns)]
            exact ⟨hl2, rfl, rfl⟩

/-- C4 at `laptopsReply` delivered twice to `laptopsStore`: the second delivery leaves
the one proposal and the RFP as the first delivery made them. -/
theorem processVendorResponse_idempotent_witness :
    laptopsEnvLater.regExp = laptopsEnv.regExp ∧
    laptopsEnvLater.parseVendorResponse = laptopsEnv.parseVendorResponse ∧
    laptopsEnv.newId ∉ laptopsStore.proposals.map (fun p => p._id) ∧
    (processVendorResponse laptopsEnvLater
        (processVendorResponse laptopsEnv laptopsStore laptopsReply).store
        laptopsReply).store.rfps
      = (processVendorResponse laptopsEnv laptopsStore laptopsReply).store.rfps :=
  ⟨rfl, rfl, by decide,
   (processVendorResponse_idempotent laptopsEnv laptopsEnvLater laptopsStore laptopsReply
      rfl rfl (by decide)).2.1⟩

theorem titleRegExp_ok (env : Env) (em : EmailData) (re : String → Bool)
    (h : titleRegExp env em = .ok re) :
    ∃ subject title, em.subject = some subject ∧ extractTitle subject = some title ∧
      env.regExp title = some re := by
  unfold titleRegExp at h
  cases hs : em.subject with
  | none => rw [hs] at h; simp at h
  | some subject =>
    rw [hs] at h
    cases ht : extractTitle subject with
    | none => simp [ht] at h
    | some title =>
      cases hr : env.regExp title with
      | none => simp [ht, hr] at h
      | some re1 =>
        simp only [ht, hr, Except.ok.injEq] at h
        exact ⟨subject, title, rfl, ht, by rw [hr, h]⟩

/-- C7. `processVendorResponse` changes nothing when correlation fails: if no vendor has
an email equal to the sender address, or the subject regex does not match (no `RFP:`
marker followed by a title), or no RFP matches the extracted title, then the AI parser
is not invoked and the store (every proposal, every RFP) is the same as before. -/
theorem processVendorResponse_uncorrelated_unchanged (env : Env) (s : Store)
    (em : EmailData)
    (h : (∀ v ∈ s.vendors, v.email ≠ em.sender) ∨
      (∀ subject, em.subject = some subject → extractTitle subject = none) ∨
      (∀ subject title re, em.subject = some subject → extractTitle subject = some title →
        env.regExp title = some re → ∀ r ∈ s.rfps, re r.title = false)) :
    (processVendorResponse env s em).store = s ∧
    (processVendorResponse env s em).aiCalls = [] ∧
    (processVendorResponse env s em).outcome.proposalWritten = false := by
  cases hc : correlate env s em with
  | error o =>
    rw [processVendorResponse_uncorrelated env s em o hc]
    refine ⟨rfl, rfl, ?_⟩
    unfold correlate at hc
    cases hv : findVendor s em with
    | none => simp [hv] at hc; subst hc; rfl
    | some v =>
      cases ht : titleRegExp env em with
      | error o1 =>
        simp [hv, ht] at hc
        subst hc
        unfold titleRegExp at ht
        cases hs : em.subject with
        | none => simp [hs] at ht; subst ht; rfl
        | some subject =>
          cases hx : extractTitle subject with
          | none => simp [hs, hx] at ht; subst ht; rfl
          | some title =>
            cases hr : env.regExp title with
            | none => simp [hs, hx, hr] at ht; subst ht; rfl
            | some re => simp [hs, hx, hr] at ht
      | ok re =>
        cases hf : s.rfps.find? (fun r => re r.title) with
        | none => simp [hv, ht, hf] at hc; subst hc; rfl
        | some r => simp [hv, ht, hf] at hc
  | ok vr =>
    exfalso
    obtain ⟨vendor, rfp⟩ := vr
    obtain ⟨re, ht, hven, hf⟩ := correlate_ok env s em vendor rfp hc
    obtain ⟨subject, title, hsub, hext, hre⟩ := titleRegExp_ok env em re ht
    rcases h with h | h | h
    · have hmem : vendor ∈ s.vendors := List.mem_of_find?_eq_some hven
      have hve : (vendor.email == em.sender) = true :=
        List.find?_some (p := fun v : Vendor => v.email == em.sender) hven
      exact h vendor hmem (by simpa using hve)
    · have := h subject hsub
      rw [hext] at this
      exact absurd this (by simp)
    · have hmem : rfp ∈ s.rfps := List.mem_of_find?_eq_some hf
      have hq : re rfp.title = true :=
        List.find?_some (p := fun r : RFP => re r.title) hf
      rw [h subject title re hsub hext hre rfp hmem] at hq
      exact absurd hq (by simp)

/-- C7 at `strangerMail`, whose sender is no vendor of `laptopsStore`. -/
theorem processVendorResponse_uncorrelated_unchanged_witness :
    (∀ v ∈ laptopsStore.vendors, v.email ≠ strangerMail.sender) ∧
    (processVendorResponse laptopsEnv laptopsStore strangerMail).store = laptopsStore ∧
    (processVendorResponse laptopsEnv laptopsStore strangerMail).aiCalls = [] :=
  ⟨by decide,
   (processVendorResponse_uncorrelated_unchanged laptopsEnv laptopsStore strangerMail
      (Or.inl (by decide))).1,
   (processVendorResponse_uncorrelated_unchanged laptopsEnv laptopsStore strangerMail
      (Or.inl (by decide))).2.1⟩

/-- C8. RFP status on receipt of a proposal: after a successful run of
`processVendorResponse` the correlated RFP is stored with status `in-review` if it was
`sent` before and with its previous status otherwise, and the collection of RFPs keeps
its documents and their order, with no status changed but that of the correlated RFP
(the documents with its `_id`) when it was `sent`. -/
theorem processVendorResponse_rfp_status (env : Env) (s : Store) (em : EmailData)
    (vendor : Vendor) (rfp : RFP)
    (hcor : correlate env s em = .ok (vendor, rfp))
    (hok : (processVendorResponse env s em).outcome.succeeded = true) :
    (∃ r ∈ (processVendorResponse env s em).store.rfps,
        r._id = rfp._id ∧ r.title = rfp.title ∧
        r.status = if rfp.status = "sent" then "in-review" else rfp.status) ∧
    (processVendorResponse env s em).store.rfps.map (fun r => (r._id, r.status))
      = s.rfps.map (fun r =>
          (r._id, if r._id = rfp._id ∧ rfp.status = "sent" then "in-review" else r.status)) := by
  obtain ⟨re, -, -, hf⟩ := correlate_ok env s em vendor rfp hcor
  have hmem : rfp ∈ s.rfps := List.mem_of_find?_eq_some hf
  cases hp : env.parseVendorResponse (emailContent em) (rfpDetails rfp) with
  | none =>
    rw [processVendorResponse_parserFailed env s em vendor rfp hcor hp] at hok
    exact absurd hok (by simp [Outcome.succeeded])
  | some parsed =>
    cases hu : upsertProposal env rfp vendor parsed em s.proposals with
    | none =>
      rw [processVendorResponse_proposalRejected env s em vendor rfp parsed hcor hp hu] at hok
      exact absurd hok (by simp [Outcome.succeeded])
    | some lw =>
      obtain ⟨l1, w⟩ := lw
      cases hr : updateRfpStatus env rfp s.rfps with
      | none =>
        rw [processVendorResponse_rfpRejected env s em vendor rfp parsed l1 w hcor hp hu hr]
          at hok
        exact absurd hok (by simp [Outcome.succeeded])
      | some rfps1 =>
        rw [processVendorResponse_written env s em vendor rfp parsed l1 w rfps1 hcor hp hu hr]
        rcases updateRfpStatus_some env rfp s.rfps rfps1 hr with ⟨hsent, rfl⟩ | ⟨hns, rfl⟩
        · refine ⟨⟨{ rfp with status := "in-review", updatedAt := env.now }, ?_, rfl, rfl, ?_⟩, ?_⟩
          · show _ ∈ saveRFP _ s.rfps
            unfold saveRFP
            exact List.mem_map.mpr ⟨rfp, hmem, by simp⟩
          · simp [hsent]
          · show (saveRFP _ s.rfps).map _ = _
            unfold saveRFP
            rw [List.map_map]
            apply List.map_congr_left
            intro r _
            by_cases hid : r._id = rfp._id
            · simp [hid, hsent]
            · simp [hid]
        · refine ⟨⟨rfp, hmem, rfl, rfl, by simp [hns]⟩, ?_⟩
          apply List.map_congr_left
          intro r _
          simp [hns]

/-- C8 at `laptopsReply` on `laptopsStore`, whose RFP was `sent`: it is `in-review`
afterwards. -/
theorem processVendorResponse_rfp_status_witness :
    correlate laptopsEnv laptopsStore laptopsReply = .ok (acme, laptopsRfp) ∧
    (processVendorResponse laptopsEnv laptopsStore laptopsReply).outcome.succeeded = true ∧
    (processVendorResponse laptopsEnv laptopsStore laptopsReply).store.rfps.map
        (fun r => (r._id, r.status))
      = [(10, "in-review")] :=
  ⟨rfl, rfl,
   (processVendorResponse_rfp_status laptopsEnv laptopsStore laptopsReply acme laptopsRfp
      rfl rfl).2⟩

/-! ## Claims on fetchUnreadEmails -/

theorem closedUnsettled_step (st : FetchState) (ev : FetchEvent)
    (h : st.closedUnsettled = true) : (st.step ev).closedUnsettled = true := by
  obtain ⟨cc, pr, emails, ec, ta, ra, oa, sa, fs, fea, fena, iea, iena⟩ := st
  simp only [FetchState.closedUnsettled, Bool.and_eq_true, Bool.not_eq_true', beq_iff_eq] at h
  obtain ⟨⟨⟨⟨rfl, rfl⟩, rfl⟩, rfl⟩, rfl⟩ := h
  cases ev with
  | ready => rfl
  | openBox err => rfl
  | search err results => rfl
  | message parsed =>
    cases fs
    · rfl
    · cases parsed <;> rfl
  | fetchError => cases fea <;> rfl
  | fetchEnd => cases fena <;> rfl
  | imapError connReset => cases iea <;> rfl
  | imapEnd => cases iena <;> rfl
  | timeout => cases ta <;> rfl
  | close => rfl

theorem closedUnsettled_run (events : List FetchEvent) (st : FetchState)
    (h : st.closedUnsettled = true) : (st.run events).closedUnsettled = true := by
  induction events generalizing st with
  | nil => exact h
  | cons ev rest ih => exact ih (st.step ev) (closedUnsettled_step st ev h)

/-- C5. The promise of `fetchUnreadEmails` hangs after a fetch of one unread message:
when the fetch ends, its handler sets `connectionClosed` and calls `imap.end()` without
settling the promise, and from then on no event (the IMAP `end`, `error` and `close`
events and the 30-second timer included) resolves or rejects it. -/
theorem fetchUnreadEmails_hangs_after_fetch (emailData : EmailData)
    (later : List FetchEvent) :
    (FetchState.init.run (oneMessageFetch emailData)).connectionClosed = true ∧
    (FetchState.init.run (oneMessageFetch emailData)).promise = .pending ∧
    ((FetchState.init.run (oneMessageFetch emailData)).run later).promise = .pending := by
  have h0 : (FetchState.init.run (oneMessageFetch emailData)).closedUnsettled = true := rfl
  have h1 := closedUnsettled_run later _ h0
  simp only [FetchState.closedUnsettled, Bool.and_eq_true, beq_iff_eq] at h1
  exact ⟨rfl, rfl, h1.1.1.1.2⟩

theorem processVendorResponse_unwritten (env : Env) (s : Store) (em : EmailData)
    (h : (processVendorResponse env s em).outcome.proposalWritten = false) :
    (processVendorResponse env s em).store = s := by
  cases hc : correlate env s em with
  | error o => rw [processVendorResponse_uncorrelated env s em o hc]
  | ok vr =>
    obtain ⟨vendor, rfp⟩ := vr
    cases hp : env.parseVendorResponse (emailContent em) (rfpDetails rfp) with
    | none => rw [processVendorResponse_parserFailed env s em vendor rfp hc hp]
    | some parsed =>
      cases hu : upsertProposal env rfp vendor parsed em s.proposals with
      | none => rw [processVendorResponse_proposalRejected env s em vendor rfp parsed hc hp hu]
      | some lw =>
        obtain ⟨l1, w⟩ := lw
        have hw : w.proposalWritten = true := by
          obtain ⟨e, h1 | h1⟩ := upsertProposal_find env rfp vendor parsed em s.proposals l1 w hu
          · rw [h1.2.2]; rfl
          · rw [h1.2.2.2]; rfl
        cases hr : updateRfpStatus env rfp s.rfps with
        | none =>
          rw [processVendorResponse_rfpRejected env s em vendor rfp parsed l1 w hc hp hu hr] at h
          exact absurd h (by simp [Outcome.proposalWritten])
        | some rfps =>
          rw [processVendorResponse_written env s em vendor rfp parsed l1 w rfps hc hp hu hr] at h
          rw [hw] at h
          exact absurd h (by simp)

/-- C6, as stated, fails: the one unread message of `strangerInbox` is fetched, its
sender is no vendor, so processing writes no proposal and leaves the store as it was,
and yet the message is flagged seen: no later search for unseen messages finds it. -/
theorem checkMailbox_drops_seen_message :
    fetchedEmails strangerInbox = [strangerMail] ∧
    (checkMailbox (fun _ => laptopsEnv) laptopsStore strangerInbox).1 = laptopsStore ∧
    (checkMailbox (fun _ => laptopsEnv) laptopsStore strangerInbox).1.proposals = [] ∧
    (checkMailbox (fun _ => laptopsEnv) laptopsStore strangerInbox).2
      = [{ seen := true, parsed := some strangerMail }] ∧
    unseenMessages (checkMailbox (fun _ => laptopsEnv) laptopsStore strangerInbox).2 = [] :=
  ⟨rfl, rfl, rfl, rfl, rfl⟩

theorem upsertProposal_shape (env : Env) (rfp : RFP) (vendor : Vendor)
    (parsed : ParsedProposal) (em : EmailData) (l l1 : List Proposal) (w : Outcome)
    (h : upsertProposal env rfp vendor parsed em l = some (l1, w)) :
    ∃ doc, doc.valid = true ∧
      ((l.find? (isPair rfp._id vendor._id) = none ∧
          doc = newProposal env rfp vendor parsed em ∧ l1 = l ++ [doc]) ∨
       (∃ e, l.find? (isPair rfp._id vendor._id) = some e ∧
          doc = applyParsed parsed em env.now e ∧ l1 = saveProposal doc l)) := by
  unfold upsertProposal at h
  cases hf : l.find? (isPair rfp._id vendor._id) with
  | none =>
    rw [hf] at h
    simp only at h
    split at h
    · rename_i hvalid
      simp only [Option.some.injEq, Prod.mk.injEq] at h
      exact ⟨newProposal env rfp vendor parsed em, hvalid, Or.inl ⟨rfl, rfl, h.1.symm⟩⟩
    · exact absurd h (by simp)
  | some e =>
    rw [hf] at h
    simp only at h
    split at h
    · rename_i hvalid
      simp only [Option.some.injEq, Prod.mk.injEq] at h
      exact ⟨applyParsed parsed em env.now e, hvalid, Or.inr ⟨e, rfl, rfl, h.1.symm⟩⟩
    · exact absurd h (by simp)

theorem processFetched_take_succ (world : Nat → Env) (s : Store) (emails : List EmailData)
    (i : Nat) (em : EmailData) (h : emails[i]? = some em) :
    processFetched world s (emails.take (i + 1))
      = (processVendorResponse (world i) (processFetched world s (emails.take i)) em).store := by
  induction emails generalizing world s i with
  | nil => simp at h
  | cons a rest ih =>
    cases i with
    | zero =>
      simp only [List.getElem?_cons_zero, Option.some.injEq] at h
      subst h
      simp [processFetched]
    | succ k =>
      simp only [List.getElem?_cons_succ] at h
      simp only [List.take_succ_cons, processFetched]
      exact ih (fun i => world (i + 1)) (processVendorResponse (world 0) s a).store k h

theorem processVendorResponse_written_or_unchanged (env : Env) (s0 : Store)
    (em : EmailData) :
    ((processVendorResponse env s0 em).outcome.proposalWritten = false ∧
      (processVendorResponse env s0 em).store = s0) ∨
    ((processVendorResponse env s0 em).outcome.proposalWritten = true ∧
      ∃ vendor rfp parsed proposals written doc,
        correlate env s0 em = .ok (vendor, rfp) ∧
        env.parseVendorResponse (emailContent em) (rfpDetails rfp) = some parsed ∧
        upsertProposal env rfp vendor parsed em s0.proposals = some (proposals, written) ∧
        doc.valid = true ∧
        ((s0.proposals.find? (isPair rfp._id vendor._id) = none ∧
            doc = newProposal env rfp vendor parsed em ∧
            proposals = s0.proposals ++ [doc]) ∨
         (∃ e, s0.proposals.find? (isPair rfp._id vendor._id) = some e ∧
            doc = applyParsed parsed em env.now e ∧
            proposals = saveProposal doc s0.proposals)) ∧
        (processVendorResponse env s0 em).store.proposals = proposals ∧
        (processVendorResponse env s0 em).store.vendors = s0.vendors) := by
  cases hc : correlate env s0 em with
  | error o =>
    left
    rw [processVendorResponse_uncorrelated env s0 em o hc]
    refine ⟨?_, rfl⟩
    unfold correlate at hc
    cases hv : findVendor s0 em with
    | none =>
      simp only [hv] at hc
      cases hc
      rfl
    | some vendor =>
      simp only [hv] at hc
      cases ht : titleRegExp env em with
      | error o1 =>
        simp only [ht] at hc
        cases hc
        unfold titleRegExp at ht
        cases hsub : em.subject with
        | none =>
          simp only [hsub] at ht
          cases ht
          rfl
        | some subject =>
          simp only [hsub] at ht
          cases hx : extractTitle subject with
          | none =>
            simp only [hx] at ht
            cases ht
            rfl
          | some title =>
            simp only [hx] at ht
            cases hre : env.regExp title with
            | none =>
              simp only [hre] at ht
              cases ht
              rfl
            | some re =>
              simp only [hre] at ht
              cases ht
      | ok re =>
        simp only [ht] at hc
        cases hf : s0.rfps.find? (fun r => re r.title) with
        | none =>
          simp only [hf] at hc
          cases hc
          rfl
        | some rfp =>
          simp only [hf] at hc
          cases hc
  | ok vr =>
    obtain ⟨vendor, rfp⟩ := vr
    cases hp : env.parseVendorResponse (emailContent em) (rfpDetails rfp) with
    | none =>
      left
      rw [processVendorResponse_parserFailed env s0 em vendor rfp hc hp]
      exact ⟨rfl, rfl⟩
    | some parsed =>
      cases hu : upsertProposal env rfp vendor parsed em s0.proposals with
      | none =>
        left
        rw [processVendorResponse_proposalRejected env s0 em vendor rfp parsed hc hp hu]
        exact ⟨rfl, rfl⟩
      | some lw =>
        obtain ⟨l1, w⟩ := lw
        right
        obtain ⟨doc, hvalid, hshape⟩ :=
          upsertProposal_shape env rfp vendor parsed em s0.proposals l1 w hu
        have hw : w.proposalWritten = true := by
          obtain ⟨e, h1 | h1⟩ :=
            upsertProposal_find env rfp vendor parsed em s0.proposals l1 w hu
          · rw [h1.2.2]; rfl
          · rw [h1.2.2.2]; rfl
        cases hr : updateRfpStatus env rfp s0.rfps with
        | none =>
          rw [processVendorResponse_rfpRejected env s0 em vendor rfp parsed l1 w hc hp hu hr]
          exact ⟨rfl, vendor, rfp, parsed, l1, w, doc, rfl, hp, hu, hvalid, hshape,
            rfl, rfl⟩
        | some rfps =>
          rw [processVendorResponse_written env s0 em vendor rfp parsed l1 w rfps hc hp hu hr]
          exact ⟨hw, vendor, rfp, parsed, l1, w, doc, rfl, hp, hu, hvalid, hshape,
            rfl, rfl⟩

/-- C6, amended. Every message of the inbox is flagged seen by the fetch itself
(`markSeen: true`), whatever its processing does, so a later search for unseen messages
finds none of them. The store after the fetch is the result of processing the fetched
messages one after the other, the `i`-th in the world `world i` on the store the earlier
ones left. Processing one message either writes no proposal and leaves the store as it
was, or writes one: then correlation, parsing and validation of the proposal have
succeeded, the proposals afterwards are the ones before with the one valid proposal
appended or replaced by `_id`, and the vendors are as before. So the store differs after
the fetch only if the processing of one of the fetched messages, in its world and on the
store before it, wrote a proposal; a message whose processing writes nothing is seen and
dropped. -/
theorem checkMailbox_marks_seen (world : Nat → Env) (s : Store) (mailbox : List Message) :
    (checkMailbox world s mailbox).2.map (fun m => m.parsed)
      = mailbox.map (fun m => m.parsed) ∧
    (checkMailbox world s mailbox).2.all (fun m => m.seen) = true ∧
    unseenMessages (checkMailbox world s mailbox).2 = [] ∧
    (checkMailbox world s mailbox).1
      = processFetched world s
          ((fetchedEmails mailbox).take (fetchedEmails mailbox).length) ∧
    processFetched world s ((fetchedEmails mailbox).take 0) = s ∧
    (∀ i em, (fetchedEmails mailbox)[i]? = some em →
      processFetched world s ((fetchedEmails mailbox).take (i + 1))
        = (processVendorResponse (world i)
            (processFetched world s ((fetchedEmails mailbox).take i)) em).store) ∧
    (∀ env s0 em,
      ((processVendorResponse env s0 em).outcome.proposalWritten = false ∧
        (processVendorResponse env s0 em).store = s0) ∨
      ((processVendorResponse env s0 em).outcome.proposalWritten = true ∧
        ∃ vendor rfp parsed proposals written doc,
          correlate env s0 em = .ok (vendor, rfp) ∧
          env.parseVendorResponse (emailContent em) (rfpDetails rfp) = some parsed ∧
          upsertProposal env rfp vendor parsed em s0.proposals
            = some (proposals, written) ∧
          doc.valid = true ∧
          ((s0.proposals.find? (isPair rfp._id vendor._id) = none ∧
              doc = newProposal env rfp vendor parsed em ∧
              proposals = s0.proposals ++ [doc]) ∨
           (∃ e, s0.proposals.find? (isPair rfp._id vendor._id) = some e ∧
              doc = applyParsed parsed em env.now e ∧
              proposals = saveProposal doc s0.proposals)) ∧
          (processVendorResponse env s0 em).store.proposals = proposals ∧
          (processVendorResponse env s0 em).store.vendors = s0.vendors)) ∧
    ((checkMailbox world s mailbox).1 = s ∨
      ∃ i em, (fetchedEmails mailbox)[i]? = some em ∧
        (processVendorResponse (world i)
          (processFetched world s ((fetchedEmails mailbox).take i))
          em).outcome.proposalWritten = true) := by
  refine ⟨?_, ?_, ?_, ?_, rfl, ?_, ?_, ?_⟩
  · simp [checkMailbox, fetchMarkSeen]
  · simp [checkMailbox, fetchMarkSeen]
  · simp [checkMailbox, fetchMarkSeen, unseenMessages]
  · rw [List.take_length]
    rfl
  · intro i em h
    exact processFetched_take_succ world s (fetchedEmails mailbox) i em h
  · intro env s0 em
    exact processVendorResponse_written_or_unchanged env s0 em
  · show processFetched world s (fetchedEmails mailbox) = s ∨ _
    generalize fetchedEmails mailbox = emails
    by_cases hall : ∀ i em, emails[i]? = some em →
        (processVendorResponse (world i) (processFetched world s (emails.take i))
          em).outcome.proposalWritten = false
    · left
      have hpre : ∀ n, n ≤ emails.length → processFetched world s (emails.take n) = s := by
        intro n
        induction n with
        | zero => intro _; rfl
        | succ k ih =>
          intro hk
          have hlt : k < emails.length := hk
          have hget : emails[k]? = some (emails.get ⟨k, hlt⟩) := by
            simp [List.getElem?_eq_getElem hlt]
          rw [processFetched_take_succ world s emails k _ hget]
          have hw := hall k _ hget
          rw [processVendorResponse_unwritten _ _ _ hw]
          exact ih (Nat.le_of_lt hlt)
      have := hpre emails.length (Nat.le_refl _)
      rwa [List.take_length] at this
    · right
      by_contra hno
      apply hall
      intro i em hget
      cases hw : (processVendorResponse (world i) (processFetched world s (emails.take i))
          em).outcome.proposalWritten with
      | false => rfl
      | true => exact absurd ⟨i, em, hget, hw⟩ hno

/-- C6 (amended) at `mixedInbox`: both unread messages are seen afterwards; the first,
from an unknown sender, leaves the store as it was, and the second is processed on that
store and writes the one proposal of the store after the fetch. -/
theorem checkMailbox_marks_seen_witness :
    fetchedEmails mixedInbox = [strangerMail, laptopsReply] ∧
    unseenMessages (checkMailbox (fun _ => laptopsEnv) laptopsStore mixedInbox).2 = [] ∧
    processFetched (fun _ => laptopsEnv) laptopsStore ((fetchedEmails mixedInbox).take 1)
      = (processVendorResponse laptopsEnv laptopsStore strangerMail).store ∧
    processFetched (fun _ => laptopsEnv) laptopsStore ((fetchedEmails mixedInbox).take 2)
      = (processVendorResponse laptopsEnv
          (processFetched (fun _ => laptopsEnv) laptopsStore
            ((fetchedEmails mixedInbox).take 1)) laptopsReply).store ∧
    (processVendorResponse laptopsEnv laptopsStore strangerMail).store = laptopsStore ∧
    (checkMailbox (fun _ => laptopsEnv) laptopsStore mixedInbox).1.proposals.map
        (fun p => (p._id, p.vendorId, p.rfpId)) = [(100, 1, 10)] :=
  ⟨rfl,
   (checkMailbox_marks_seen (fun _ => laptopsEnv) laptopsStore mixedInbox).2.2.1,
   (checkMailbox_marks_seen (fun _ => laptopsEnv) laptopsStore mixedInbox).2.2.2.2.2.1
      0 strangerMail rfl,
   (checkMailbox_marks_seen (fun _ => laptopsEnv) laptopsStore mixedInbox).2.2.2.2.2.1
      1 laptopsReply rfl,
   rfl, rfl⟩

/-! ## The score range invariant -/

theorem valid_scores (p : Proposal) (h : p.valid = true) :
    scoreInRange p.complianceScore = true ∧ scoreInRange p.aiScore = true := by
  simp only [Proposal.valid, Bool.and_eq_true] at h
  exact ⟨h.1.1.2, h.1.2⟩

theorem scoresWithinRange_save (doc : Proposal) (l : List Proposal)
    (hl : scoresWithinRange l) (hdoc : doc.valid = true) :
    scoresWithinRange (saveProposal doc l) := by
  intro p hp
  unfold saveProposal at hp
  obtain ⟨x, hx, rfl⟩ := List.mem_map.mp hp
  by_cases hid : (x._id == doc._id) = true
  · rw [if_pos hid]
    exact valid_scores doc hdoc
  · rw [if_neg hid]
    exact hl x hx

theorem scoresWithinRange_append (doc : Proposal) (l : List Proposal)
    (hl : scoresWithinRange l) (hdoc : doc.valid = true) :
    scoresWithinRange (l ++ [doc]) := by
  intro p hp
  rcases List.mem_append.mp hp with hp | hp
  · exact hl p hp
  · rw [List.mem_singleton] at hp
    subst hp
    exact valid_scores p hdoc

theorem scoresWithinRange_upsert (env : Env) (rfp : RFP) (vendor : Vendor)
    (parsed : ParsedProposal) (em : EmailData) (l l1 : List Proposal) (w : Outcome)
    (hl : scoresWithinRange l)
    (h : upsertProposal env rfp vendor parsed em l = some (l1, w)) :
    scoresWithinRange l1 := by
  unfold upsertProposal at h
  cases hf : l.find? (isPair rfp._id vendor._id) with
  | none =>
    rw [hf] at h
    simp only at h
    split at h
    · rename_i hvalid
      simp only [Option.some.injEq, Prod.mk.injEq] at h
      obtain ⟨rfl, -⟩ := h
      exact scoresWithinRange_append _ l hl hvalid
    · exact absurd h (by simp)
  | some e =>
    rw [hf] at h
    simp only at h
    split at h
    · rename_i hvalid
      simp only [Option.some.injEq, Prod.mk.injEq] at h
      obtain ⟨rfl, -⟩ := h
      exact scoresWithinRange_save _ l hl hvalid
    · exact absurd h (by simp)

theorem scoresWithinRange_processVendorResponse (env : Env) (s : Store) (em : EmailData)
    (hs : scoresWithinRange s.proposals) :
    scoresWithinRange (processVendorResponse env s em).store.proposals := by
  cases hc : correlate env s em with
  | error o => rw [processVendorResponse_uncorrelated env s em o hc]; exact hs
  | ok vr =>
    obtain ⟨vendor, rfp⟩ := vr
    cases hp : env.parseVendorResponse (emailContent em) (rfpDetails rfp) with
    | none => rw [processVendorResponse_parserFailed env s em vendor rfp hc hp]; exact hs
    | some parsed =>
      cases hu : upsertProposal env rfp vendor parsed em s.proposals with
      | none =>
        rw [processVendorResponse_proposalRejected env s em vendor rfp parsed hc hp hu]
        exact hs
      | some lw =>
        obtain ⟨l1, w⟩ := lw
        have h1 := scoresWithinRange_upsert env rfp vendor parsed em s.proposals l1 w hs hu
        cases hr : updateRfpStatus env rfp s.rfps with
        | none =>
          rw [processVendorResponse_rfpRejected env s em vendor rfp parsed l1 w hc hp hu hr]
          exact h1
        | some rfps =>
          rw [processVendorResponse_written env s em vendor rfp parsed l1 w rfps hc hp hu hr]
          exact h1

theorem scoresWithinRange_scoreProposals (now : Date) (vendorScores : List VendorScore)
    (proposals : List PopulatedProposal) (stored : List Proposal)
    (hs : scoresWithinRange stored) :
    scoresWithinRange (scoreProposals now vendorScores proposals stored).2.2 := by
  induction vendorScores generalizing proposals stored with
  | nil => exact hs
  | cons vs rest ih =>
    unfold scoreProposals
    cases hf : proposals.find? (hasVendorName vs.vendorName) with
    | none => exact ih proposals stored hs
    | some pv =>
      obtain ⟨proposal, vendor⟩ := pv
      simp only
      by_cases hv : (applyScore vs now proposal).valid = true
      · rw [if_pos hv]
        exact ih _ _ (scoresWithinRange_save _ stored hs hv)
      · rw [if_neg hv]
        exact hs

theorem scoresWithinRange_compareProposalsById (ai : ComparisonModel) (now : Date)
    (s : Store) (rfpId : ObjectId) (hs : scoresWithinRange s.proposals) :
    scoresWithinRange (compareProposalsById ai now s rfpId).store.proposals := by
  unfold compareProposalsById
  cases hf : s.rfps.find? (fun r => r._id == rfpId) with
  | none => exact hs
  | some rfp =>
    simp only
    by_cases hlen : (populatedProposals s rfpId).length = 0
    · rw [if_pos hlen]; exact hs
    · rw [if_neg hlen]
      cases hd : proposalsData (populatedProposals s rfpId) with
      | none => exact hs
      | some data =>
        simp only
        cases hai : ai (comparisonDetails rfp) data with
        | none => exact hs
        | some comparison =>
          simp only
          have h1 := scoresWithinRange_scoreProposals now comparison.vendorScores
            (populatedProposals s rfpId) s.proposals hs
          rcases hsp : scoreProposals now comparison.vendorScores
            (populatedProposals s rfpId) s.proposals with ⟨ok, docs, stored⟩
          rw [hsp] at h1
          cases ok <;> exact h1

theorem scoresWithinRange_compareProposals (ai : ComparisonModel) (now : Date) (s : Store)
    (rfpId : RequestId) (hs : scoresWithinRange s.proposals) :
    scoresWithinRange (compareProposals ai now s rfpId).store.proposals := by
  cases rfpId with
  | malformed raw => exact hs
  | objectId id => exact scoresWithinRange_compareProposalsById ai now s id hs

theorem scoresWithinRange_createProposal (now : Date) (newId : ObjectId) (s : Store)
    (body : ProposalBody) (hs : scoresWithinRange s.proposals) :
    scoresWithinRange (createProposal now newId s body).1.proposals := by
  unfold createProposal
  split
  · simp only
    split
    · rename_i hvalid
      exact scoresWithinRange_append _ s.proposals hs hvalid
    · exact hs
  · exact hs

theorem scoresWithinRange_updateProposalStatus (s : Store) (id : ObjectId)
    (status : Option String) (hs : scoresWithinRange s.proposals) :
    scoresWithinRange (updateProposalStatus s id status).1.proposals := by
  unfold updateProposalStatus
  cases status with
  | none =>
    simp only
    cases s.proposals.find? (fun p => p._id == id) <;> exact hs
  | some st =>
    simp only
    split
    · cases s.proposals.find? (fun p => p._id == id) with
      | none => exact hs
      | some e =>
        intro p hp
        obtain ⟨x, hx, rfl⟩ := List.mem_map.mp hp
        by_cases hid : (x._id == id) = true
        · rw [if_pos hid]
          exact hs x hx
        · rw [if_neg hid]
          exact hs x hx
    · exact hs

/-- C10. Score range invariant: if each stored proposal's `complianceScore` and
`aiScore`, when present, lie between 0 and 100, then the same holds after
`processVendorResponse` (create and update), `createProposal`, `compareProposals` and
`updateProposalStatus`, whatever the parser, the comparison model and the request body
supply: the schema validators refuse every write that would break it. -/
theorem scores_within_range_preserved (s : Store) (hs : scoresWithinRange s.proposals) :
    (∀ env em, scoresWithinRange (processVendorResponse env s em).store.proposals) ∧
    (∀ now newId body, scoresWithinRange (createProposal now newId s body).1.proposals) ∧
    (∀ ai now rfpId, scoresWithinRange (compareProposals ai now s rfpId).store.proposals) ∧
    (∀ id status, scoresWithinRange (updateProposalStatus s id status).1.proposals) :=
  ⟨fun env em => scoresWithinRange_processVendorResponse env s em hs,
   fun now newId body => scoresWithinRange_createProposal now newId s body hs,
   fun ai now rfpId => scoresWithinRange_compareProposals ai now s rfpId hs,
   fun id status => scoresWithinRange_updateProposalStatus s id status hs⟩

/-- C10 at `scoredStore`: its scores 90 and 70 are in range, and so are the scores
stored after a further reply is processed. -/
theorem scores_within_range_preserved_witness :
    scoresWithinRange scoredStore.proposals ∧
    scoresWithinRange
      (processVendorResponse revisedEnv scoredStore laptopsSecondReply).store.proposals :=
  ⟨by unfold scoresWithinRange; decide,
   (scores_within_range_preserved scoredStore (by unfold scoresWithinRange; decide)).1
     revisedEnv laptopsSecondReply⟩

/-! ## The scoring loop of compareProposals -/

theorem hasVendorName_snd (name : String) (p q : Proposal) (v : Option Vendor) :
    hasVendorName name (p, v) = hasVendorName name (q, v) := rfl

theorem hasVendorName_ne {m n : String} (hmn : m ≠ n) (pv : PopulatedProposal)
    (hm : hasVendorName m pv = true) : hasVendorName n pv = false := by
  obtain ⟨p, v⟩ := pv
  cases v with
  | none => rfl
  | some v =>
    simp only [hasVendorName, beq_iff_eq] at hm
    simp only [hasVendorName, beq_eq_false_iff_ne, ne_eq]
    rw [hm]
    exact hmn

theorem find?_modifyFirst_same (n : String) (doc : Proposal) (docs : List PopulatedProposal)
    (p : Proposal) (v : Option Vendor)
    (hf : docs.find? (hasVendorName n) = some (p, v)) :
    (modifyFirst (hasVendorName n) (fun pv => (doc, pv.2)) docs).find? (hasVendorName n)
      = some (doc, v) := by
  induction docs with
  | nil => simp at hf
  | cons a rest ih =>
    unfold modifyFirst
    by_cases ha : hasVendorName n a = true
    · rw [List.find?_cons_of_pos _ ha] at hf
      simp only [Option.some.injEq] at hf
      subst hf
      rw [if_pos ha]
      exact List.find?_cons_of_pos _ ha
    · rw [List.find?_cons_of_neg _ ha] at hf
      rw [if_neg ha, List.find?_cons_of_neg _ ha]
      exact ih hf

theorem find?_modifyFirst_other {m n : String} (hmn : m ≠ n) (doc : Proposal)
    (docs : List PopulatedProposal) :
    (modifyFirst (hasVendorName m) (fun pv => (doc, pv.2)) docs).find? (hasVendorName n)
      = docs.find? (hasVendorName n) := by
  induction docs with
  | nil => rfl
  | cons a rest ih =>
    unfold modifyFirst
    by_cases ha : hasVendorName m a = true
    · rw [if_pos ha]
      have h1 : hasVendorName n a = false := hasVendorName_ne hmn a ha
      have h2 : hasVendorName n (doc, a.2) = false := by
        rw [hasVendorName_snd n doc a.1 a.2]; exact h1
      rw [List.find?_cons_of_neg _ (by simp [h2]), List.find?_cons_of_neg _ (by simp [h1])]
    · rw [if_neg ha]
      by_cases hn : hasVendorName n a = true
      · rw [List.find?_cons_of_pos _ hn, List.find?_cons_of_pos _ hn]
      · rw [List.find?_cons_of_neg _ hn, List.find?_cons_of_neg _ hn]
        exact ih

/-- On an array whose documents have distinct `_id`s, changing the first element that
satisfies a test is changing the element with its `_id`. -/
theorem modifyFirst_eq_map (q : PopulatedProposal → Bool)
    (f : PopulatedProposal → PopulatedProposal) (docs : List PopulatedProposal)
    (a : PopulatedProposal) (hnd : (docs.map (fun pv => pv.1._id)).Nodup)
    (hf : docs.find? q = some a) :
    modifyFirst q f docs = docs.map (fun pv => if pv.1._id = a.1._id then f pv else pv) := by
  induction docs with
  | nil => simp at hf
  | cons x rest ih =>
    rw [List.map_cons, List.nodup_cons] at hnd
    obtain ⟨hx, hrest⟩ := hnd
    unfold modifyFirst
    by_cases hq : q x = true
    · rw [List.find?_cons_of_pos _ hq] at hf
      simp only [Option.some.injEq] at hf
      subst hf
      rw [if_pos hq, List.map_cons, if_pos rfl]
      congr 1
      symm
      calc rest.map (fun pv => if pv.1._id = x.1._id then f pv else pv)
          = rest.map id := by
            apply List.map_congr_left
            intro pv hpv
            have hne : pv.1._id ≠ x.1._id := by
              intro heq
              exact hx (heq ▸ List.mem_map_of_mem (fun pv => pv.1._id) hpv)
            simp [hne]
        _ = rest := List.map_id _
    · rw [List.find?_cons_of_neg _ hq] at hf
      have hamem : a ∈ rest := List.mem_of_find?_eq_some hf
      have hne : x.1._id ≠ a.1._id := by
        intro heq
        exact hx (heq ▸ List.mem_map_of_mem (fun pv => pv.1._id) hamem)
      rw [if_neg hq, List.map_cons, if_neg hne, ih hrest hf]

theorem scoreAfter_cons (name : String) (e : VendorScore) (rest : List VendorScore)
    (before : Option Int) :
    scoreAfter name (e :: rest) before
      = scoreAfter name rest (if e.vendorName = name then e.overallScore else before) := rfl

/-- The score the loop leaves is that of the last entry with the name. -/
theorem scoreAfter_eq_last (name : String) (vendorScores : List VendorScore)
    (before : Option Int) :
    scoreAfter name vendorScores before
      = match vendorScores.reverse.find? (fun x => x.vendorName == name) with
        | some last => last.overallScore
        | none => before := by
  induction vendorScores generalizing before with
  | nil => rfl
  | cons e rest ih =>
    rw [scoreAfter_cons, ih, List.reverse_cons, List.find?_append]
    cases hr : rest.reverse.find? (fun x => x.vendorName == name) with
    | some last => rfl
    | none =>
      by_cases he : e.vendorName = name
      · simp [he]
      · simp [he]

theorem saveProposal_ids (doc : Proposal) (db : List Proposal) :
    (saveProposal doc db).map (fun x => x._id) = db.map (fun x => x._id) := by
  unfold saveProposal
  rw [List.map_map]
  apply List.map_congr_left
  intro x _
  by_cases hid : x._id = doc._id
  · simp [hid]
  · simp [hid]

theorem find?_id_of_mem (l : List Proposal) (hnd : (l.map (fun p => p._id)).Nodup)
    (x : Proposal) (hx : x ∈ l) : l.find? (fun q => q._id == x._id) = some x := by
  induction l with
  | nil => simp at hx
  | cons a rest ih =>
    rw [List.map_cons, List.nodup_cons] at hnd
    rcases List.mem_cons.mp hx with rfl | hx
    · exact List.find?_cons_of_pos _ (by simp)
    · have hne : a._id ≠ x._id := by
        intro heq
        exact hnd.1 (heq ▸ List.mem_map_of_mem (fun p => p._id) hx)
      rw [List.find?_cons_of_neg _ (by simpa using hne)]
      exact ih hnd.2 hx

/-- What a completed scoring loop has done: the collection keeps its `_id`s, the array
in memory mirrors it, and the proposal found for a vendor name carries the score the
entries with that name leave. -/
theorem scoreProposals_spec (now : Date) (vendorScores : List VendorScore)
    (docs docs1 : List PopulatedProposal) (db db1 : List Proposal)
    (hnd : (docs.map (fun pv => pv.1._id)).Nodup)
    (hmem : ∀ pv ∈ docs, pv.1 ∈ db)
    (h : scoreProposals now vendorScores docs db = (true, docs1, db1)) :
    db1.map (fun x => x._id) = db.map (fun x => x._id) ∧
    (∀ pv ∈ docs1, pv.1 ∈ db1) ∧
    ∀ n p v, docs.find? (hasVendorName n) = some (p, v) →
      ∃ p1, docs1.find? (hasVendorName n) = some (p1, v) ∧ p1._id = p._id ∧
        p1.aiScore = scoreAfter n vendorScores p.aiScore := by
  induction vendorScores generalizing docs db with
  | nil =>
    simp only [scoreProposals, Prod.mk.injEq, true_and] at h
    obtain ⟨rfl, rfl⟩ := h
    exact ⟨rfl, hmem, fun n p v hn => ⟨p, hn, rfl, rfl⟩⟩
  | cons e rest ih =>
    unfold scoreProposals at h
    cases hf : docs.find? (hasVendorName e.vendorName) with
    | none =>
      rw [hf] at h
      simp only at h
      obtain ⟨h1, h2, h3⟩ := ih docs db hnd hmem h
      refine ⟨h1, h2, ?_⟩
      intro n p v hn
      have hne : e.vendorName ≠ n := by
        intro heq
        rw [heq, hn] at hf
        exact absurd hf (by simp)
      obtain ⟨p1, hp1, hid, hsc⟩ := h3 n p v hn
      exact ⟨p1, hp1, hid, by rw [scoreAfter_cons, if_neg hne]; exact hsc⟩
    | some found =>
      obtain ⟨proposal, vendor⟩ := found
      rw [hf] at h
      simp only at h
      by_cases hvalid : (applyScore e now proposal).valid = true
      · rw [if_pos hvalid] at h
        have hmap : modifyFirst (hasVendorName e.vendorName)
            (fun pv => (applyScore e now proposal, pv.2)) docs
            = docs.map (fun pv => if pv.1._id = proposal._id
                then (applyScore e now proposal, pv.2) else pv) :=
          modifyFirst_eq_map (hasVendorName e.vendorName)
            (fun pv => (applyScore e now proposal, pv.2)) docs (proposal, vendor) hnd hf
        have hndM : ((modifyFirst (hasVendorName e.vendorName)
            (fun pv => (applyScore e now proposal, pv.2)) docs).map
              (fun pv => pv.1._id)).Nodup := by
          rw [hmap, List.map_map]
          have : (docs.map ((fun pv : PopulatedProposal => pv.1._id) ∘
              fun pv => if pv.1._id = proposal._id
                then (applyScore e now proposal, pv.2) else pv))
              = docs.map (fun pv => pv.1._id) := by
            apply List.map_congr_left
            intro pv _
            by_cases hid : pv.1._id = proposal._id
            · simp [hid, applyScore]
            · simp [hid]
          rw [this]
          exact hnd
        have hmemM : ∀ pv ∈ modifyFirst (hasVendorName e.vendorName)
            (fun pv => (applyScore e now proposal, pv.2)) docs,
            pv.1 ∈ saveProposal (applyScore e now proposal) db := by
          intro pv hpv
          rw [hmap] at hpv
          obtain ⟨pv0, hpv0, rfl⟩ := List.mem_map.mp hpv
          unfold saveProposal
          refine List.mem_map.mpr ⟨pv0.1, hmem pv0 hpv0, ?_⟩
          by_cases hid : pv0.1._id = proposal._id
          · have hid1 : pv0.1._id = (applyScore e now proposal)._id := hid
            rw [if_pos hid, if_pos (by simpa using hid1)]
          · have hid1 : pv0.1._id ≠ (applyScore e now proposal)._id := hid
            rw [if_neg hid, if_neg (by simpa using hid1)]
        obtain ⟨h1, h2, h3⟩ := ih _ _ hndM hmemM h
        refine ⟨h1.trans (saveProposal_ids _ db), h2, ?_⟩
        intro n p v hn
        by_cases hen : e.vendorName = n
        · subst hen
          rw [hn] at hf
          simp only [Option.some.injEq, Prod.mk.injEq] at hf
          obtain ⟨rfl, rfl⟩ := hf
          have hfM := find?_modifyFirst_same e.vendorName (applyScore e now p) docs p v hn
          obtain ⟨p1, hp1, hid, hsc⟩ := h3 e.vendorName (applyScore e now p) v hfM
          exact ⟨p1, hp1, hid, by rw [scoreAfter_cons, if_pos rfl]; exact hsc⟩
        · have hfM : (modifyFirst (hasVendorName e.vendorName)
              (fun pv => (applyScore e now proposal, pv.2)) docs).find? (hasVendorName n)
              = some (p, v) := by
            rw [find?_modifyFirst_other hen]; exact hn
          obtain ⟨p1, hp1, hid, hsc⟩ := h3 n p v hfM
          exact ⟨p1, hp1, hid, by rw [scoreAfter_cons, if_neg hen]; exact hsc⟩
      · rw [if_neg hvalid] at h
        simp at h

theorem compareProposals_ok (ai : ComparisonModel) (now : Date) (s : Store)
    (rfpId : ObjectId) (rfp : RFP) (data : List ProposalData) (comparison : Comparison)
    (hrfp : s.rfps.find? (fun r => r._id == rfpId) = some rfp)
    (hdata : proposalsData (populatedProposals s rfpId) = some data)
    (hai : ai (comparisonDetails rfp) data = some comparison)
    (hok : (compareProposals ai now s (.objectId rfpId)).status = 200) :
    ∃ docs1 db1, scoreProposals now comparison.vendorScores (populatedProposals s rfpId)
        s.proposals = (true, docs1, db1) ∧
      (compareProposals ai now s (.objectId rfpId)).store.proposals = db1 := by
  simp only [compareProposals] at hok ⊢
  unfold compareProposalsById at hok ⊢
  rw [hrfp] at hok ⊢
  simp only at hok ⊢
  by_cases hlen : (populatedProposals s rfpId).length = 0
  · rw [if_pos hlen] at hok
    simp at hok
  · rw [if_neg hlen] at hok ⊢
    rw [hdata] at hok ⊢
    simp only at hok ⊢
    rw [hai] at hok ⊢
    simp only at hok ⊢
    rcases hsp : scoreProposals now comparison.vendorScores (populatedProposals s rfpId)
      s.proposals with ⟨ok, docs1, db1⟩
    rw [hsp] at hok
    cases ok with
    | false => simp at hok
    | true => exact ⟨docs1, db1, rfl, rfl⟩

/-! ## Claims on compareProposals -/

/-- C9, as stated, fails: both proposals of the RFP have a vendor named
`Tech Solutions Ltd`, the comparison answers with the entries 80 and 60 for that name,
`compareProposals` responds 200, and afterwards the first proposal has `aiScore` 60 (not
the 80 of the first entry) and the second proposal has none. -/
theorem compareProposals_scores_counterexample :
    (compareProposals twinModel 6000 twinStore (.objectId 10)).status = 200 ∧
    (populatedProposals twinStore 10).map (fun pv => (pv.1._id, pv.2.map (fun v => v.name)))
      = [(100, some "Tech Solutions Ltd"), (101, some "Tech Solutions Ltd")] ∧
    twinComparison.vendorScores.map (fun e => (e.vendorName, e.overallScore))
      = [("Tech Solutions Ltd", some 80), ("Tech Solutions Ltd", some 60)] ∧
    (compareProposals twinModel 6000 twinStore (.objectId 10)).store.proposals.map
        (fun p => (p._id, p.rfpId, p.aiScore))
      = [(100, 10, some 60), (101, 10, none)] :=
  ⟨rfl, rfl, rfl, rfl⟩

/-- C9, amended. Proposals are scored by the comparison, first match by name and last
entry wins: on a collection with distinct `_id`s, after `compareProposals` responds with
success, for every entry of the AI's `vendorScores` the first proposal of the RFP whose
vendor's name equals the entry's `vendorName` is stored with `aiScore` equal to the
`overallScore` of the last entry with that `vendorName`. -/
theorem compareProposals_scores (ai : ComparisonModel) (now : Date) (s : Store)
    (rfpId : ObjectId) (rfp : RFP) (data : List ProposalData) (comparison : Comparison)
    (hids : (s.proposals.map (fun p => p._id)).Nodup)
    (hrfp : s.rfps.find? (fun r => r._id == rfpId) = some rfp)
    (hdata : proposalsData (populatedProposals s rfpId) = some data)
    (hai : ai (comparisonDetails rfp) data = some comparison)
    (hok : (compareProposals ai now s (.objectId rfpId)).status = 200) :
    ∀ e ∈ comparison.vendorScores, ∀ p v,
      (populatedProposals s rfpId).find? (hasVendorName e.vendorName) = some (p, v) →
      ∃ last p1,
        comparison.vendorScores.reverse.find? (fun x => x.vendorName == e.vendorName)
          = some last ∧
        (compareProposals ai now s (.objectId rfpId)).store.proposals.find?
          (fun q => q._id == p._id) = some p1 ∧
        p1.aiScore = last.overallScore := by
  intro e he p v hfind
  obtain ⟨docs1, db1, hsp, hstore⟩ :=
    compareProposals_ok ai now s rfpId rfp data comparison hrfp hdata hai hok
  have hsub : ((populatedProposals s rfpId).map (fun pv => pv.1._id)).Nodup := by
    unfold populatedProposals
    rw [List.map_map]
    exact (List.Sublist.map (fun p : Proposal => p._id) (List.filter_sublist _)).nodup hids
  have hmem : ∀ pv ∈ populatedProposals s rfpId, pv.1 ∈ s.proposals := by
    intro pv hpv
    unfold populatedProposals at hpv
    obtain ⟨x, hx, rfl⟩ := List.mem_map.mp hpv
    exact (List.mem_filter.mp hx).1
  obtain ⟨hidsAfter, hmemAfter, hscores⟩ :=
    scoreProposals_spec now comparison.vendorScores _ docs1 _ db1 hsub hmem hsp
  obtain ⟨p1, hp1, hid, hsc⟩ := hscores e.vendorName p v hfind
  have hp1mem : p1 ∈ db1 := hmemAfter (p1, v) (List.mem_of_find?_eq_some hp1)
  have hnd1 : (db1.map (fun x => x._id)).Nodup := by rw [hidsAfter]; exact hids
  have hlook := find?_id_of_mem db1 hnd1 p1 hp1mem
  rw [hid] at hlook
  rw [scoreAfter_eq_last] at hsc
  cases hlast : comparison.vendorScores.reverse.find?
      (fun x => x.vendorName == e.vendorName) with
  | none =>
    have := List.find?_eq_none.mp hlast e (List.mem_reverse.mpr he)
    simp at this
  | some last =>
    rw [hlast] at hsc
    exact ⟨last, p1, rfl, by rw [hstore]; exact hlook, hsc⟩

/-- C9 (amended) at `twinStore` and `twinComparison`: the first proposal with the vendor
name is stored with the score of the last entry. -/
theorem compareProposals_scores_witness :
    (twinStore.proposals.map (fun p => p._id)).Nodup ∧
    (compareProposals twinModel 6000 twinStore (.objectId 10)).status = 200 ∧
    ((compareProposals twinModel 6000 twinStore (.objectId 10)).store.proposals.find?
        (fun q => q._id == 100)).map (fun p => p.aiScore) = some (some 60) := by
  refine ⟨by decide, rfl, ?_⟩
  obtain ⟨last, p1, hlast, hfind, hscore⟩ :=
    compareProposals_scores twinModel 6000 twinStore 10 laptopsRfpInReview twinData
      twinComparison (by decide) rfl rfl rfl rfl
      (scoreEntry "Tech Solutions Ltd" 80) (by decide)
      (newProposal laptopsEnv laptopsRfp acme laptopsOffer laptopsReply) (some acme) rfl
  have h1 : some (scoreEntry "Tech Solutions Ltd" 60) = some last := hlast
  have h2 : (compareProposals twinModel 6000 twinStore (.objectId 10)).store.proposals.find?
      (fun q => q._id == 100) = some p1 := hfind
  rw [h2, Option.map_some', hscore, ← Option.some.inj h1]
  rfl

/-! ## Claims on createRFP -/

theorem getProp_cons_of_pos (a : String × Json) (rest : JsObject) (key : String)
    (h : (a.1 == key) = true) : getProp (a :: rest) key = some a.2 := by
  unfold getProp
  rw [List.find?_cons]
  simp only [h, Option.map_some']

theorem getProp_cons_of_neg (a : String × Json) (rest : JsObject) (key : String)
    (h : (a.1 == key) = false) : getProp (a :: rest) key = getProp rest key := by
  unfold getProp
  rw [List.find?_cons]
  simp only [h]

theorem getProp_setProp_same (o : JsObject) (key : String) (value : Json) :
    getProp (setProp o key value) key = some value := by
  unfold setProp
  by_cases h : o.any (fun kv => kv.1 == key) = true
  · rw [if_pos h]
    induction o with
    | nil => simp at h
    | cons a rest ih =>
      rw [List.map_cons]
      by_cases ha : (a.1 == key) = true
      · rw [if_pos ha, getProp_cons_of_pos _ _ _ (by simp)]
      · have hrest : rest.any (fun kv => kv.1 == key) = true := by
          simpa [List.any_cons, ha] using h
        rw [if_neg ha, getProp_cons_of_neg _ _ _ (by simpa using ha)]
        exact ih hrest
  · rw [if_neg h]
    have hnone : o.find? (fun kv => kv.1 == key) = none := by
      rw [List.find?_eq_none]
      intro x hx hxk
      exact h (List.any_eq_true.mpr ⟨x, hx, hxk⟩)
    simp [getProp, List.find?_append, hnone]

theorem getProp_setProp_other (o : JsObject) (key other : String) (value : Json)
    (hne : other ≠ key) : getProp (setProp o key value) other = getProp o other := by
  have hkey : (key == other) = false := by simpa using fun h => hne h.symm
  unfold setProp
  by_cases h : o.any (fun kv => kv.1 == key) = true
  · rw [if_pos h]
    clear h
    induction o with
    | nil => rfl
    | cons a rest ih =>
      rw [List.map_cons]
      by_cases ha : (a.1 == key) = true
      · have hao : (a.1 == other) = false := by
          have : a.1 = key := by simpa using ha
          rw [this]; exact hkey
        rw [if_pos ha, getProp_cons_of_neg _ _ _ hkey, getProp_cons_of_neg _ _ _ hao]
        exact ih
      · rw [if_neg ha]
        by_cases hao : (a.1 == other) = true
        · rw [getProp_cons_of_pos _ _ _ hao, getProp_cons_of_pos _ _ _ hao]
        · rw [getProp_cons_of_neg _ _ _ (by simpa using hao),
            getProp_cons_of_neg _ _ _ (by simpa using hao)]
          exact ih
  · rw [if_neg h]
    simp only [getProp, List.find?_append]
    cases o.find? (fun kv => kv.1 == other) with
    | some kv => rfl
    | none => simp [hkey]

/-- C11. `createRFP` always creates a draft of the user's text: for every non-empty
`naturalLanguageInput` and every object the AI returns, also one that carries `status`
or `rawInput` itself, the AI service is called once with the input, and the one object
passed to `RFP.create` has `status` equal to `draft`, `rawInput` equal to the request's
`naturalLanguageInput`, and every other property equal to the AI's value. When the
database stores a document for that object, the response is 201 with `success` true and
the store is the old one followed by that document; when the database throws, the
response is 500 with `success` false and the store is unchanged. -/
theorem createRFP_draft_of_input (env : RfpEnv) (s : Store) (input : String)
    (parsedRFP : JsObject) (hinput : input ≠ "")
    (hai : env.parseRFPFromNaturalLanguage input = some parsedRFP) :
    (createRFP env s (some input)).aiCalls = [input] ∧
    (createRFP env s (some input)).createCalls = [rfpCreateArgument parsedRFP input] ∧
    getProp (rfpCreateArgument parsedRFP input) "status" = some (.str "draft") ∧
    getProp (rfpCreateArgument parsedRFP input) "rawInput" = some (.str input) ∧
    (∀ key, key ≠ "status" → key ≠ "rawInput" →
      getProp (rfpCreateArgument parsedRFP input) key = getProp parsedRFP key) ∧
    (∀ doc, env.create (rfpCreateArgument parsedRFP input) = some doc →
      (createRFP env s (some input)).status = 201 ∧
      (createRFP env s (some input)).success = true ∧
      (createRFP env s (some input)).store = { s with rfps := s.rfps ++ [doc] }) ∧
    (env.create (rfpCreateArgument parsedRFP input) = none →
      (createRFP env s (some input)).status = 500 ∧
      (createRFP env s (some input)).success = false ∧
      (createRFP env s (some input)).store = s) := by
  refine ⟨?_, ?_, ?_, ?_, ?_, ?_, ?_⟩
  · unfold createRFP
    simp only [if_neg hinput, hai]
    cases env.create (rfpCreateArgument parsedRFP input) <;> rfl
  · unfold createRFP
    simp only [if_neg hinput, hai]
    cases env.create (rfpCreateArgument parsedRFP input) <;> rfl
  · exact getProp_setProp_same _ _ _
  · unfold rfpCreateArgument
    rw [getProp_setProp_other _ _ _ _ (by decide), getProp_setProp_same]
  · intro key hs hr
    unfold rfpCreateArgument
    rw [getProp_setProp_other _ _ _ _ hs, getProp_setProp_other _ _ _ _ hr]
  · intro doc hdoc
    unfold createRFP
    simp only [if_neg hinput, hai, hdoc]
    exact ⟨trivial, trivial, trivial⟩
  · intro hnone
    unfold createRFP
    simp only [if_neg hinput, hai, hnone]
    exact ⟨trivial, trivial, trivial⟩

/-- C11 at `laptopsAnswer`, which carries the status `sent` and a `rawInput` of its own,
with a database that accepts the object: the response is 201 and the store gains
`laptopsDraft`, a draft with the request's text as `rawInput`. -/
theorem createRFP_draft_of_input_witness :
    (createRFP laptopsDraftEnv laptopsStore (some "I need 20 laptops")).createCalls
      = [[("title", .str " Laptops "),
          ("description", .str "Twenty laptops for the new office"),
          ("status", .str "draft"),
          ("budget", .obj [("amount", .num 50000)]),
          ("requirements", .arr [.obj [("item", .str "Laptop"), ("quantity", .num 20)]]),
          ("rawInput", .str "I need 20 laptops")]] ∧
    (createRFP laptopsDraftEnv laptopsStore (some "I need 20 laptops")).status = 201 ∧
    (createRFP laptopsDraftEnv laptopsStore (some "I need 20 laptops")).success = true ∧
    (createRFP laptopsDraftEnv laptopsStore (some "I need 20 laptops")).store
      = { laptopsStore with rfps := [laptopsRfp, laptopsDraft] } ∧
    laptopsDraft.status = "draft" ∧ laptopsDraft.rawInput = some "I need 20 laptops" :=
  ⟨(createRFP_draft_of_input laptopsDraftEnv laptopsStore "I need 20 laptops"
      laptopsAnswer (by decide) rfl).2.1,
   ((createRFP_draft_of_input laptopsDraftEnv laptopsStore "I need 20 laptops"
      laptopsAnswer (by decide) rfl).2.2.2.2.2.1 laptopsDraft (by decide)).1,
   ((createRFP_draft_of_input laptopsDraftEnv laptopsStore "I need 20 laptops"
      laptopsAnswer (by decide) rfl).2.2.2.2.2.1 laptopsDraft (by decide)).2.1,
   ((createRFP_draft_of_input laptopsDraftEnv laptopsStore "I need 20 laptops"
      laptopsAnswer (by decide) rfl).2.2.2.2.2.1 laptopsDraft (by decide)).2.2,
   rfl, rfl⟩

/-- C12. `createRFP` requires input: for every request whose `naturalLanguageInput` is
missing or the empty string, `createRFP` responds 400 with `success` false, does not
call the AI service, calls `RFP.create` with nothing and leaves the store as it was. -/
theorem createRFP_requires_input (env : RfpEnv) (s : Store) (input : Option String)
    (h : input = none ∨ input = some "") :
    (createRFP env s input).status = 400 ∧
    (createRFP env s input).success = false ∧
    (createRFP env s input).aiCalls = [] ∧
    (createRFP env s input).createCalls = [] ∧
    (createRFP env s input).store = s := by
  rcases h with rfl | rfl
  · exact ⟨rfl, rfl, rfl, rfl, rfl⟩
  · exact ⟨rfl, rfl, rfl, rfl, rfl⟩

/-- C12 at a request with an empty `naturalLanguageInput`. -/
theorem createRFP_requires_input_witness :
    (createRFP sentAnswerEnv laptopsStore (some "")).status = 400 ∧
    (createRFP sentAnswerEnv laptopsStore (some "")).aiCalls = [] :=
  ⟨(createRFP_requires_input sentAnswerEnv laptopsStore (some "") (Or.inr rfl)).1,
   (createRFP_requires_input sentAnswerEnv laptopsStore (some "") (Or.inr rfl)).2.2.1⟩

/-! ## Claims on sendRFPToVendors -/

theorem sendLoop_emailResults (env : SendEnv) (rfp : RFP) (vendors : List Vendor)
    (st : SendLoopState) :
    (sendLoop env rfp vendors st).emailResults = st.emailResults ++ vendors.map (fun v =>
      match env.sendRFPEmail v.email v.name rfp with
      | .ok _ => { vendorId := v._id, vendorName := v.name, email := v.email,
                   status := "sent", sentAt := some env.now, error := none }
      | .error message => { vendorId := v._id, vendorName := v.name, email := v.email,
                            status := "failed", sentAt := none, error := some message }) := by
  induction vendors generalizing st with
  | nil => simp [sendLoop]
  | cons v rest ih =>
    unfold sendLoop
    cases h : env.sendRFPEmail v.email v.name rfp with
    | ok u => simp only [ih, List.map_cons, h, List.append_assoc, List.singleton_append]
    | error m => simp only [ih, List.map_cons, h, List.append_assoc, List.singleton_append]

theorem sendLoop_mails (env : SendEnv) (rfp : RFP) (vendors : List Vendor)
    (st : SendLoopState) :
    (sendLoop env rfp vendors st).mails
      = st.mails ++ vendors.map (fun v => (v.email, rfpSubject rfp.title)) := by
  induction vendors generalizing st with
  | nil => simp [sendLoop]
  | cons v rest ih =>
    unfold sendLoop
    cases h : env.sendRFPEmail v.email v.name rfp with
    | ok u => simp only [ih, List.map_cons, List.append_assoc, List.singleton_append]
    | error m => simp only [ih, List.map_cons, List.append_assoc, List.singleton_append]

theorem sendLoop_sentToVendors (env : SendEnv) (rfp : RFP) (vendors : List Vendor)
    (st : SendLoopState) :
    (sendLoop env rfp vendors st).sentToVendors
      = st.sentToVendors ++
        (vendors.filter (fun v => (env.sendRFPEmail v.email v.name rfp).toBool)).map
          (fun v => { vendorId := v._id, sentAt := env.now }) := by
  induction vendors generalizing st with
  | nil => simp [sendLoop]
  | cons v rest ih =>
    unfold sendLoop
    cases h : env.sendRFPEmail v.email v.name rfp with
    | ok u =>
      simp only [ih, List.filter_cons, h, Except.toBool, if_true, List.map_cons,
        List.append_assoc, List.singleton_append]
    | error m =>
      simp only [ih, List.filter_cons, h, Except.toBool, Bool.false_eq_true, if_false]

theorem findVendors_nil (s : Store) : findVendors s [] = [] := by
  simp [findVendors]

theorem castIds_map (ids : List ObjectId) :
    castIds (ids.map RequestId.objectId) = some ids := by
  induction ids with
  | nil => rfl
  | cons a rest ih => simp [castIds, ih]

theorem sendToFound_no_vendors (env : SendEnv) (s : Store) (rfp : RFP)
    (vendorIds : List ObjectId) (h : findVendors s vendorIds = []) :
    sendToFound env s rfp vendorIds
      = { store := s, status := 404, emailResults := [], mails := [] } := by
  simp [sendToFound, h]

theorem sendRFPToVendors_found (env : SendEnv) (s : Store) (req : SendRequest)
    (rfpId : ObjectId) (vendorIds : List ObjectId) (rfp : RFP)
    (hid : req.rfpId = some (.objectId rfpId))
    (hids : req.vendorIds = some (vendorIds.map RequestId.objectId))
    (hrfp : s.rfps.find? (fun r => r._id == rfpId) = some rfp)
    (hne : vendorIds ≠ []) :
    sendRFPToVendors env s req = sendToFound env s rfp vendorIds := by
  obtain ⟨rid, vids⟩ := req
  simp only at hid hids
  subst hid hids
  have hbad : badRequest (SendRequest.mk (some (.objectId rfpId))
      (some (vendorIds.map RequestId.objectId))) = false := by
    cases vendorIds with
    | nil => exact absurd rfl hne
    | cons a rest => rfl
  simp only [sendRFPToVendors, hbad, Bool.false_eq_true, if_false, hrfp, castIds_map]

theorem sendRFPToVendors_sending (env : SendEnv) (s : Store) (req : SendRequest)
    (rfpId : ObjectId) (vendorIds : List ObjectId) (rfp : RFP)
    (hid : req.rfpId = some (.objectId rfpId))
    (hids : req.vendorIds = some (vendorIds.map RequestId.objectId))
    (hrfp : s.rfps.find? (fun r => r._id == rfpId) = some rfp)
    (hv : findVendors s vendorIds ≠ []) :
    sendRFPToVendors env s req =
      if (sentRfp env rfp (sendLoop env rfp (findVendors s vendorIds)
            SendLoopState.empty).sentToVendors).valid then
        { store := { s with rfps := saveRFP (sentRfp env rfp (sendLoop env rfp
              (findVendors s vendorIds) SendLoopState.empty).sentToVendors) s.rfps },
          status := 200,
          emailResults :=
            (sendLoop env rfp (findVendors s vendorIds) SendLoopState.empty).emailResults,
          mails := (sendLoop env rfp (findVendors s vendorIds) SendLoopState.empty).mails }
      else
        { store := s, status := 500,
          emailResults :=
            (sendLoop env rfp (findVendors s vendorIds) SendLoopState.empty).emailResults,
          mails := (sendLoop env rfp (findVendors s vendorIds) SendLoopState.empty).mails } := by
  have hne : vendorIds ≠ [] := by
    intro h
    rw [h, findVendors_nil] at hv
    exact hv rfl
  have hlenv : ¬ (findVendors s vendorIds).length = 0 := by
    intro h
    exact hv (List.length_eq_zero.mp h)
  rw [sendRFPToVendors_found env s req rfpId vendorIds rfp hid hids hrfp hne]
  simp only [sendToFound, if_neg hlenv]

theorem sendRFPToVendors_status_of_no_vendors (env : SendEnv) (s : Store)
    (req : SendRequest) (rfpId : ObjectId) (vendorIds : List ObjectId) (rfp : RFP)
    (hid : req.rfpId = some (.objectId rfpId))
    (hids : req.vendorIds = some (vendorIds.map RequestId.objectId))
    (hrfp : s.rfps.find? (fun r => r._id == rfpId) = some rfp)
    (hv : findVendors s vendorIds = []) :
    (sendRFPToVendors env s req).status ≠ 200 := by
  by_cases hne : vendorIds = []
  · obtain ⟨rid, vids⟩ := req
    simp only at hid hids
    subst hid hids hne
    simp [sendRFPToVendors, badRequest, RequestId.missing]
  · rw [sendRFPToVendors_found env s req rfpId vendorIds rfp hid hids hrfp hne,
      sendToFound_no_vendors env s rfp vendorIds hv]
    simp

/-- C13, as stated, fails: no RFP has the id `abc`, and `sendRFPToVendors` responds 500,
not 404: `RFP.findById` throws on an id that is no ObjectId. -/
theorem sendRFPToVendors_malformed_id :
    twinStore.rfps.map (fun r => r._id) = [10] ∧
    badRequest malformedRfpRequest = false ∧
    (sendRFPToVendors flakyMail twinStore malformedRfpRequest).status = 500 ∧
    (sendRFPToVendors flakyMail twinStore malformedRfpRequest).status ≠ 404 :=
  ⟨rfl, rfl, rfl, by decide⟩

/-- C13, amended. `sendRFPToVendors` validates before sending: it responds 400 when
`rfpId` is missing or `vendorIds` is missing or empty; otherwise 500 when `rfpId` is no
ObjectId, 404 when it is an ObjectId no RFP has; otherwise 500 when one of the
`vendorIds` is no ObjectId, and 404 when all are ObjectIds and none names an existing
vendor. In each of these cases the email service is not called and the store (the RFP's
status and `sentToVendors`) is as before. -/
theorem sendRFPToVendors_validates (env : SendEnv) (s : Store) (req : SendRequest) :
    (badRequest req = true →
      (sendRFPToVendors env s req).status = 400 ∧
      (sendRFPToVendors env s req).mails = [] ∧ (sendRFPToVendors env s req).store = s) ∧
    (∀ raw, badRequest req = false → req.rfpId = some (.malformed raw) →
      (sendRFPToVendors env s req).status = 500 ∧
      (sendRFPToVendors env s req).mails = [] ∧ (sendRFPToVendors env s req).store = s) ∧
    (∀ rfpId, badRequest req = false → req.rfpId = some (.objectId rfpId) →
      s.rfps.find? (fun r => r._id == rfpId) = none →
      (sendRFPToVendors env s req).status = 404 ∧
      (sendRFPToVendors env s req).mails = [] ∧ (sendRFPToVendors env s req).store = s) ∧
    (∀ rfpId rfp vendorIds, badRequest req = false → req.rfpId = some (.objectId rfpId) →
      s.rfps.find? (fun r => r._id == rfpId) = some rfp →
      req.vendorIds = some vendorIds → castIds vendorIds = none →
      (sendRFPToVendors env s req).status = 500 ∧
      (sendRFPToVendors env s req).mails = [] ∧ (sendRFPToVendors env s req).store = s) ∧
    (∀ rfpId rfp vendorIds ids, badRequest req = false →
      req.rfpId = some (.objectId rfpId) →
      s.rfps.find? (fun r => r._id == rfpId) = some rfp →
      req.vendorIds = some vendorIds → castIds vendorIds = some ids →
      findVendors s ids = [] →
      (sendRFPToVendors env s req).status = 404 ∧
      (sendRFPToVendors env s req).mails = [] ∧ (sendRFPToVendors env s req).store = s) := by
  obtain ⟨rid, vids⟩ := req
  refine ⟨?_, ?_, ?_, ?_, ?_⟩
  · intro hbad
    simp [sendRFPToVendors, hbad]
  · intro raw hbad hid
    simp only at hid
    subst hid
    simp only [sendRFPToVendors, hbad, Bool.false_eq_true, if_false]
    exact ⟨trivial, trivial, trivial⟩
  · intro rfpId hbad hid hrfp
    simp only at hid
    subst hid
    simp only [sendRFPToVendors, hbad, Bool.false_eq_true, if_false]
    cases vids with
    | none => simp [badRequest, RequestId.missing] at hbad
    | some vendorIds =>
      simp only [hrfp]
      exact ⟨trivial, trivial, trivial⟩
  · intro rfpId rfp vendorIds hbad hid hrfp hvids hcast
    simp only at hid hvids
    subst hid hvids
    simp only [sendRFPToVendors, hbad, Bool.false_eq_true, if_false, hrfp, hcast]
    exact ⟨trivial, trivial, trivial⟩
  · intro rfpId rfp vendorIds ids hbad hid hrfp hvids hcast hnone
    simp only at hid hvids
    subst hid hvids
    simp only [sendRFPToVendors, hbad, Bool.false_eq_true, if_false, hrfp, hcast,
      sendToFound_no_vendors env s rfp ids hnone]
    exact ⟨trivial, trivial, trivial⟩

/-- C13 (amended) at a request for an ObjectId the store has no RFP for, and at a request
whose `rfpId` is no ObjectId. -/
theorem sendRFPToVendors_validates_witness :
    (sendRFPToVendors flakyMail twinStore
        { rfpId := some (.objectId 77), vendorIds := some [.objectId 1] }).status = 404 ∧
    (sendRFPToVendors flakyMail twinStore
        { rfpId := some (.objectId 77), vendorIds := some [.objectId 1] }).mails = [] ∧
    (sendRFPToVendors flakyMail twinStore malformedRfpRequest).status = 500 ∧
    (sendRFPToVendors flakyMail twinStore malformedRfpRequest).mails = [] :=
  ⟨((sendRFPToVendors_validates flakyMail twinStore
        { rfpId := some (.objectId 77), vendorIds := some [.objectId 1] }).2.2.1
      77 rfl rfl rfl).1,
   ((sendRFPToVendors_validates flakyMail twinStore
        { rfpId := some (.objectId 77), vendorIds := some [.objectId 1] }).2.2.1
      77 rfl rfl rfl).2.1,
   ((sendRFPToVendors_validates flakyMail twinStore malformedRfpRequest).2.1
      "abc" rfl rfl).1,
   ((sendRFPToVendors_validates flakyMail twinStore malformedRfpRequest).2.1
      "abc" rfl rfl).2.1⟩

/-- C14. `sendRFPToVendors` reports one result per vendor: for every RFP found and every
non-empty list of found vendors, `emailResults` has exactly one entry per found vendor,
in the vendors' order, whose status is `sent` exactly when that vendor's email send
succeeded and `failed`, with the error message, otherwise; and the email service was
called once for each found vendor, in order, whatever the earlier sends did. -/
theorem sendRFPToVendors_one_result_per_vendor (env : SendEnv) (s : Store)
    (req : SendRequest) (rfpId : ObjectId) (vendorIds : List ObjectId) (rfp : RFP)
    (hid : req.rfpId = some (.objectId rfpId))
    (hids : req.vendorIds = some (vendorIds.map RequestId.objectId))
    (hrfp : s.rfps.find? (fun r => r._id == rfpId) = some rfp)
    (hv : findVendors s vendorIds ≠ []) :
    (sendRFPToVendors env s req).emailResults.map (fun r => (r.vendorId, r.vendorName, r.email))
      = (findVendors s vendorIds).map (fun v => (v._id, v.name, v.email)) ∧
    (sendRFPToVendors env s req).emailResults.map (fun r => (r.status, r.error))
      = (findVendors s vendorIds).map (fun v =>
          match env.sendRFPEmail v.email v.name rfp with
          | .ok _ => ("sent", none)
          | .error message => ("failed", some message)) ∧
    (sendRFPToVendors env s req).mails
      = (findVendors s vendorIds).map (fun v => (v.email, rfpSubject rfp.title)) := by
  have hres : (sendRFPToVendors env s req).emailResults
      = (sendLoop env rfp (findVendors s vendorIds) SendLoopState.empty).emailResults := by
    rw [sendRFPToVendors_sending env s req rfpId vendorIds rfp hid hids hrfp hv]
    split <;> rfl
  have hmails : (sendRFPToVendors env s req).mails
      = (sendLoop env rfp (findVendors s vendorIds) SendLoopState.empty).mails := by
    rw [sendRFPToVendors_sending env s req rfpId vendorIds rfp hid hids hrfp hv]
    split <;> rfl
  rw [hres, hmails, sendLoop_emailResults, sendLoop_mails]
  simp only [SendLoopState.empty, List.nil_append]
  refine ⟨?_, ?_, ?_⟩
  · rw [List.map_map]
    apply List.map_congr_left
    intro v _
    simp only [Function.comp]
    cases env.sendRFPEmail v.email v.name rfp <;> rfl
  · rw [List.map_map]
    apply List.map_congr_left
    intro v _
    simp only [Function.comp]
    cases env.sendRFPEmail v.email v.name rfp <;> rfl
  · trivial

/-- C14 at `twinRequest` with `flakyMail`: the send to the first vendor succeeds, the
send to the second fails, and both are reported in the order of the collection. -/
theorem sendRFPToVendors_one_result_per_vendor_witness :
    findVendors twinStore [2, 99, 1] = [acme, acmeTwin] ∧
    (sendRFPToVendors flakyMail twinStore twinRequest).emailResults.map
        (fun r => (r.status, r.error))
      = [("sent", none), ("failed", some "mailbox unavailable")] :=
  ⟨by decide,
   (sendRFPToVendors_one_result_per_vendor flakyMail twinStore twinRequest 10 [2, 99, 1]
      laptopsRfpInReview rfl rfl rfl (by decide)).2.1⟩

/-- C15. `sendRFPToVendors` only appends to the send history: after a successful call
the stored RFP has status `sent` and its `sentToVendors` is the previous `sentToVendors`
followed by one entry for each vendor whose send succeeded, in order, and no entry for a
vendor whose send failed. -/
theorem sendRFPToVendors_appends_history (env : SendEnv) (s : Store)
    (req : SendRequest) (rfpId : ObjectId) (vendorIds : List ObjectId) (rfp : RFP)
    (hid : req.rfpId = some (.objectId rfpId))
    (hids : req.vendorIds = some (vendorIds.map RequestId.objectId))
    (hrfp : s.rfps.find? (fun r => r._id == rfpId) = some rfp)
    (hok : (sendRFPToVendors env s req).status = 200) :
    ∃ doc, (sendRFPToVendors env s req).store.rfps.find? (fun r => r._id == rfpId) = some doc ∧
      doc.status = "sent" ∧
      doc.sentToVendors = rfp.sentToVendors ++
        ((findVendors s vendorIds).filter
            (fun v => (env.sendRFPEmail v.email v.name rfp).toBool)).map
          (fun v => { vendorId := v._id, sentAt := env.now }) := by
  have hv : findVendors s vendorIds ≠ [] := by
    intro hnil
    exact sendRFPToVendors_status_of_no_vendors env s req rfpId vendorIds rfp hid hids hrfp
      hnil hok
  rw [sendRFPToVendors_sending env s req rfpId vendorIds rfp hid hids hrfp hv] at hok ⊢
  split at hok
  · rename_i hvalid
    rw [if_pos hvalid]
    have hidr : rfp._id = rfpId := by
      have := List.find?_some hrfp
      simpa using this
    refine ⟨sentRfp env rfp (sendLoop env rfp (findVendors s vendorIds)
        SendLoopState.empty).sentToVendors,
      find?_saveRFP (fun r => r._id == rfpId)
        (sentRfp env rfp (sendLoop env rfp (findVendors s vendorIds)
          SendLoopState.empty).sentToVendors) rfp (by simpa [sentRfp] using hidr) rfl
        s.rfps hrfp, rfl, ?_⟩
    simp only [sentRfp, sendLoop_sentToVendors, SendLoopState.empty, List.nil_append]
  · simp at hok

/-- C15 at `twinRequest` with `flakyMail`: the history gains the one vendor reached. -/
theorem sendRFPToVendors_appends_history_witness :
    (sendRFPToVendors flakyMail twinStore twinRequest).status = 200 ∧
    ((sendRFPToVendors flakyMail twinStore twinRequest).store.rfps.find?
        (fun r => r._id == 10)).map (fun r => (r.status, r.sentToVendors))
      = some ("sent", [{ vendorId := 1, sentAt := 1000 }, { vendorId := 1, sentAt := 7000 }]) := by
  refine ⟨rfl, ?_⟩
  obtain ⟨doc, hdoc, hstatus, hsent⟩ :=
    sendRFPToVendors_appends_history flakyMail twinStore twinRequest 10 [2, 99, 1]
      laptopsRfpInReview rfl rfl rfl rfl
  have h1 : (sendRFPToVendors flakyMail twinStore twinRequest).store.rfps.find?
      (fun r => r._id == 10) = some doc := hdoc
  rw [h1, Option.map_some', hstatus, hsent]
  rfl

/-! ## Claims on concurrent delivery -/

theorem writeProposal_find (env : Env) (rfp : RFP) (vendor : Vendor)
    (parsed : ParsedProposal) (em : EmailData) (proposals : List Proposal) :
    writeProposal env rfp vendor parsed em (proposals.find? (isPair rfp._id vendor._id))
        proposals
      = upsertProposal env rfp vendor parsed em proposals := by
  unfold writeProposal upsertProposal
  cases proposals.find? (isPair rfp._id vendor._id) <;> rfl

/-- A run whose reads and writes are not interleaved with another run is
`processVendorResponse`. -/
theorem resume_readPhase (env : Env) (s : Store) (em : EmailData) :
    resume env s em (readPhase env s em) = (processVendorResponse env s em).store := by
  cases hc : correlate env s em with
  | error o =>
    rw [processVendorResponse_uncorrelated env s em o hc]
    simp [readPhase, hc, resume]
  | ok vr =>
    obtain ⟨vendor, rfp⟩ := vr
    cases hp : env.parseVendorResponse (emailContent em) (rfpDetails rfp) with
    | none =>
      rw [processVendorResponse_parserFailed env s em vendor rfp hc hp]
      simp [readPhase, hc, hp, resume]
    | some parsed =>
      have hread : readPhase env s em
          = .ok ⟨vendor, rfp, parsed, s.proposals.find? (isPair rfp._id vendor._id)⟩ := by
        simp [readPhase, hc, hp]
      rw [hread]
      simp only [resume, writePhase, writeProposal_find]
      cases hu : upsertProposal env rfp vendor parsed em s.proposals with
      | none =>
        rw [processVendorResponse_proposalRejected env s em vendor rfp parsed hc hp hu]
      | some lw =>
        obtain ⟨l1, w⟩ := lw
        cases hr : updateRfpStatus env rfp s.rfps with
        | none =>
          rw [processVendorResponse_rfpRejected env s em vendor rfp parsed l1 w hc hp hu hr]
        | some rfps =>
          rw [processVendorResponse_written env s em vendor rfp parsed l1 w rfps hc hp hu hr]

/-- C17, as stated, fails: two replies of the same vendor to the same RFP, processed as
two callbacks that both run their `Proposal.findOne` before either writes, both find no
proposal and both create one: the pair has two proposals afterwards. -/
theorem processInterleaved_duplicates :
    correlate laptopsEnv laptopsStore laptopsReply = .ok (acme, laptopsRfp) ∧
    correlate revisedEnv laptopsStore laptopsSecondReply = .ok (acme, laptopsRfp) ∧
    laptopsStore.proposals.filter (isPair laptopsRfp._id acme._id) = [] ∧
    ((processInterleaved laptopsEnv revisedEnv laptopsStore laptopsReply
        laptopsSecondReply).proposals.filter (isPair laptopsRfp._id acme._id)).map
        (fun p => (p._id, p.complianceScore))
      = [(100, some 90), (101, some 95)] :=
  ⟨rfl, rfl, rfl, rfl⟩

theorem processVendorResponse_proposals (env : Env) (s : Store) (em : EmailData) :
    (processVendorResponse env s em).store.proposals = s.proposals ∨
    ∃ vendor rfp parsed w, upsertProposal env rfp vendor parsed em s.proposals
      = some ((processVendorResponse env s em).store.proposals, w) := by
  cases hc : correlate env s em with
  | error o => rw [processVendorResponse_uncorrelated env s em o hc]; exact Or.inl rfl
  | ok vr =>
    obtain ⟨vendor, rfp⟩ := vr
    cases hp : env.parseVendorResponse (emailContent em) (rfpDetails rfp) with
    | none =>
      rw [processVendorResponse_parserFailed env s em vendor rfp hc hp]; exact Or.inl rfl
    | some parsed =>
      cases hu : upsertProposal env rfp vendor parsed em s.proposals with
      | none =>
        rw [processVendorResponse_proposalRejected env s em vendor rfp parsed hc hp hu]
        exact Or.inl rfl
      | some lw =>
        obtain ⟨l1, w⟩ := lw
        cases hr : updateRfpStatus env rfp s.rfps with
        | none =>
          rw [processVendorResponse_rfpRejected env s em vendor rfp parsed l1 w hc hp hu hr]
          exact Or.inr ⟨vendor, rfp, parsed, w, hu⟩
        | some rfps =>
          rw [processVendorResponse_written env s em vendor rfp parsed l1 w rfps hc hp hu hr]
          exact Or.inr ⟨vendor, rfp, parsed, w, hu⟩

theorem upsertProposal_nodup (env : Env) (rfp : RFP) (vendor : Vendor)
    (parsed : ParsedProposal) (em : EmailData) (l l1 : List Proposal) (w : Outcome)
    (hnd : (l.map (fun p => p._id)).Nodup)
    (hfresh : env.newId ∉ l.map (fun p => p._id))
    (h : upsertProposal env rfp vendor parsed em l = some (l1, w)) :
    (l1.map (fun p => p._id)).Nodup := by
  unfold upsertProposal at h
  cases hf : l.find? (isPair rfp._id vendor._id) with
  | none =>
    rw [hf] at h
    simp only at h
    split at h
    · simp only [Option.some.injEq, Prod.mk.injEq] at h
      obtain ⟨rfl, -⟩ := h
      rw [List.map_append, List.map_singleton]
      exact List.Nodup.append hnd (List.nodup_singleton _)
        (by
          rw [List.disjoint_singleton]
          exact hfresh)
    · exact absurd h (by simp)
  | some e =>
    rw [hf] at h
    simp only at h
    split at h
    · simp only [Option.some.injEq, Prod.mk.injEq] at h
      obtain ⟨rfl, -⟩ := h
      rw [saveProposal_ids]
      exact hnd
    · exact absurd h (by simp)

theorem processVendorResponse_count_le (env : Env) (s : Store) (em : EmailData)
    (rfpId vendorId : ObjectId) (hnd : (s.proposals.map (fun p => p._id)).Nodup) :
    ((processVendorResponse env s em).store.proposals.filter (isPair rfpId vendorId)).length
      ≤ max 1 (s.proposals.filter (isPair rfpId vendorId)).length := by
  rcases processVendorResponse_proposals env s em with h | ⟨vendor, rfp, parsed, w, hu⟩
  · rw [h]
    exact le_max_right _ _
  · obtain ⟨hcount, hother⟩ := upsertProposal_spec env rfp vendor parsed em s.proposals _ w hnd hu
    by_cases hpair : (rfpId, vendorId) = (rfp._id, vendor._id)
    · simp only [Prod.mk.injEq] at hpair
      obtain ⟨rfl, rfl⟩ := hpair
      rw [hcount]
    · rw [hother rfpId vendorId hpair]
      exact le_max_right _ _

/-- C17, amended. No duplicates when the replies are processed one after the other: on a
collection with distinct `_id`s (the ObjectId generated in the first run being fresh) in
which an (RFP, vendor) pair has at most one proposal, after `processVendorResponse(A)`
has completed and `processVendorResponse(B)` has run after it, the pair has at most one
proposal. Callbacks that run at once are not coordinated. -/
theorem processVendorResponse_sequential_no_duplicate (env1 env2 : Env) (s : Store)
    (a b : EmailData) (rfpId vendorId : ObjectId)
    (hids : (s.proposals.map (fun p => p._id)).Nodup)
    (hfresh : env1.newId ∉ s.proposals.map (fun p => p._id))
    (hone : (s.proposals.filter (isPair rfpId vendorId)).length ≤ 1) :
    ((processVendorResponse env2 (processVendorResponse env1 s a).store b).store.proposals.filter
        (isPair rfpId vendorId)).length ≤ 1 := by
  have hnd1 : ((processVendorResponse env1 s a).store.proposals.map (fun p => p._id)).Nodup := by
    rcases processVendorResponse_proposals env1 s a with h | ⟨vendor, rfp, parsed, w, hu⟩
    · rw [h]; exact hids
    · exact upsertProposal_nodup env1 rfp vendor parsed a s.proposals _ w hids hfresh hu
  have h1 := processVendorResponse_count_le env1 s a rfpId vendorId hids
  have h2 := processVendorResponse_count_le env2 (processVendorResponse env1 s a).store b
    rfpId vendorId hnd1
  have h3 : max 1 (s.proposals.filter (isPair rfpId vendorId)).length = 1 := max_eq_left hone
  rw [h3] at h1
  rw [max_eq_left h1] at h2
  exact h2

/-- C17 (amended) at the two replies of the counterexample, processed one after the
other: the pair has one proposal, with the values of the second reply. -/
theorem processVendorResponse_sequential_no_duplicate_witness :
    (laptopsStore.proposals.map (fun p => p._id)).Nodup ∧
    laptopsEnv.newId ∉ laptopsStore.proposals.map (fun p => p._id) ∧
    ((processVendorResponse revisedEnv
        (processVendorResponse laptopsEnv laptopsStore laptopsReply).store
        laptopsSecondReply).store.proposals.filter (isPair laptopsRfp._id acme._id)).length
      ≤ 1 :=
  ⟨by decide, by decide,
   processVendorResponse_sequential_no_duplicate laptopsEnv revisedEnv laptopsStore
     laptopsReply laptopsSecondReply laptopsRfp._id acme._id (by decide) (by decide)
     (by decide)⟩

/-! ## Claims on compareProposals without data -/

/-- C16, as stated, fails: the route parameter `abc` names no RFP of the store, and
`compareProposals` responds 500, not 404: `RFP.findById` throws on a parameter that is
no ObjectId. -/
theorem compareProposals_malformed_id :
    twinStore.rfps.map (fun r => r._id) = [10] ∧
    (compareProposals twinModel 6000 twinStore (.malformed "abc")).status = 500 ∧
    (compareProposals twinModel 6000 twinStore (.malformed "abc")).status ≠ 404 :=
  ⟨rfl, rfl, by decide⟩

/-- C16, amended. `compareProposals` fails cleanly without data: if the given id is an
ObjectId that no RFP has, or the RFP has no proposals, `compareProposals` responds 404;
if the given id is no ObjectId it responds 500; in each of these cases it does not call
the AI service and leaves the store (every proposal) as it was. -/
theorem compareProposals_without_data (ai : ComparisonModel) (now : Date) (s : Store)
    (rfpId : RequestId)
    (h : (∃ raw, rfpId = .malformed raw) ∨
      (∃ id, rfpId = .objectId id ∧
        (s.rfps.find? (fun r => r._id == id) = none ∨
         s.proposals.filter (fun p => p.rfpId == id) = []))) :
    (compareProposals ai now s rfpId).status
      = (match rfpId with
         | .malformed _ => 500
         | .objectId _ => 404) ∧
    (compareProposals ai now s rfpId).aiCalls = [] ∧
    (compareProposals ai now s rfpId).store = s := by
  cases rfpId with
  | malformed raw => exact ⟨rfl, rfl, rfl⟩
  | objectId id =>
    have h1 : s.rfps.find? (fun r => r._id == id) = none ∨
        s.proposals.filter (fun p => p.rfpId == id) = [] := by
      rcases h with ⟨raw, hraw⟩ | ⟨id1, hid, h1⟩
      · exact absurd hraw (by simp)
      · simp only [RequestId.objectId.injEq] at hid
        subst hid
        exact h1
    show (compareProposalsById ai now s id).status = 404 ∧
      (compareProposalsById ai now s id).aiCalls = [] ∧
      (compareProposalsById ai now s id).store = s
    unfold compareProposalsById
    cases hf : s.rfps.find? (fun r => r._id == id) with
    | none => exact ⟨rfl, rfl, rfl⟩
    | some rfp =>
      have hnil : s.proposals.filter (fun p => p.rfpId == id) = [] := by
        rcases h1 with h1 | h1
        · rw [hf] at h1
          exact absurd h1 (by simp)
        · exact h1
      have hlen : (populatedProposals s id).length = 0 := by
        simp [populatedProposals, hnil]
      simp only [if_pos hlen]
      exact ⟨trivial, trivial, trivial⟩

/-- C16 (amended) at `laptopsStore`, whose RFP has no proposal yet, and at a parameter
that is no ObjectId. -/
theorem compareProposals_without_data_witness :
    laptopsStore.proposals.filter (fun p => p.rfpId == 10) = [] ∧
    (compareProposals twinModel 6000 laptopsStore (.objectId 10)).status = 404 ∧
    (compareProposals twinModel 6000 laptopsStore (.objectId 10)).aiCalls = [] ∧
    (compareProposals twinModel 6000 laptopsStore (.malformed "abc")).status = 500 :=
  ⟨rfl,
   (compareProposals_without_data twinModel 6000 laptopsStore (.objectId 10)
      (Or.inr ⟨10, rfl, Or.inr rfl⟩)).1,
   (compareProposals_without_data twinModel 6000 laptopsStore (.objectId 10)
      (Or.inr ⟨10, rfl, Or.inr rfl⟩)).2.1,
   (compareProposals_without_data twinModel 6000 laptopsStore (.malformed "abc")
      (Or.inl ⟨"abc", rfl⟩)).1⟩

/-! ## Claims on the title extraction -/

theorem isWhiteSpace_of_isLineTerminator (c : Char) (h : isLineTerminator c = true) :
    isWhiteSpace c = true := by
  simp only [isLineTerminator, Bool.or_eq_true, beq_iff_eq] at h
  simp only [isWhiteSpace, Bool.or_eq_true, beq_iff_eq, Bool.and_eq_true, decide_eq_true_eq]
  omega

theorem matchLazyGroup_of_not_ws (c : Char) (rest : List Char)
    (hc : isWhiteSpace c = false) :
    matchLazyGroup (c :: rest) = some (c :: rest.takeWhile (fun x => !isWhiteSpace x)) := by
  induction rest generalizing c with
  | nil =>
    have hlt : isLineTerminator c = false := by
      cases h : isLineTerminator c
      · rfl
      · rw [isWhiteSpace_of_isLineTerminator c h] at hc
        exact absurd hc (by simp)
    simp [matchLazyGroup, hlt]
  | cons d tl ih =>
    have hlt : isLineTerminator c = false := by
      cases h : isLineTerminator c
      · rfl
      · rw [isWhiteSpace_of_isLineTerminator c h] at hc
        exact absurd hc (by simp)
    unfold matchLazyGroup
    cases hd : isWhiteSpace d with
    | true => simp [hlt, hd]
    | false => simp [hlt, hd, ih d hd]

theorem matchSpacesThenGroup_of_token (r : List Char) (c : Char) (tl : List Char)
    (h : r.dropWhile isWhiteSpace = c :: tl) :
    matchSpacesThenGroup r = some ((c :: tl).takeWhile (fun x => !isWhiteSpace x)) := by
  induction r with
  | nil => simp at h
  | cons x rest ih =>
    unfold matchSpacesThenGroup
    cases hx : isWhiteSpace x with
    | true =>
      rw [List.dropWhile_cons_of_pos hx] at h
      simp only [if_true, ih h]
    | false =>
      rw [List.dropWhile_cons_of_neg (by simp [hx])] at h
      simp only [List.cons.injEq] at h
      obtain ⟨rfl, rfl⟩ := h
      simp only [Bool.false_eq_true, if_false]
      rw [matchLazyGroup_of_not_ws x rest hx, List.takeWhile_cons_of_pos (by simp [hx])]

theorem matchHere_of_token (cs t : List Char) (h : tokenAfterMarker cs = some t) :
    matchHere cs = some t := by
  unfold tokenAfterMarker at h
  unfold matchHere
  cases hm : matchMarker cs with
  | none => simp [hm] at h
  | some rest =>
    rw [hm] at h
    simp only at h
    cases hd : rest.dropWhile isWhiteSpace with
    | nil => simp [hd] at h
    | cons c tl =>
      rw [hd] at h
      simp only [Option.some.injEq] at h
      rw [Option.some_bind, matchSpacesThenGroup_of_token rest c tl hd, h]

theorem token_not_ws (cs t : List Char) (h : tokenAfterMarker cs = some t) :
    ∀ x ∈ t, isWhiteSpace x = false := by
  unfold tokenAfterMarker at h
  cases hm : matchMarker cs with
  | none => simp [hm] at h
  | some rest =>
    rw [hm] at h
    simp only at h
    cases hd : rest.dropWhile isWhiteSpace with
    | nil => simp [hd] at h
    | cons c tl =>
      rw [hd] at h
      simp only [Option.some.injEq] at h
      subst h
      intro x hx
      have := List.mem_takeWhile_imp hx
      simpa using this

theorem specFirstToken_not_ws (cs t : List Char) (h : specFirstToken cs = some t) :
    ∀ x ∈ t, isWhiteSpace x = false := by
  induction cs with
  | nil => simp [specFirstToken] at h
  | cons c rest ih =>
    unfold specFirstToken at h
    cases ht : tokenAfterMarker (c :: rest) with
    | some t1 =>
      rw [ht] at h
      simp only [Option.some.injEq] at h
      subst h
      exact token_not_ws _ _ ht
    | none =>
      rw [ht] at h
      exact ih h

theorem matchMarker_some (cs r : List Char) (h : matchMarker cs = some r) :
    ∃ c f p, cs = c :: f :: p :: ':' :: r ∧ (c = 'R' ∨ c = 'r') ∧ (f = 'F' ∨ f = 'f') ∧
      (p = 'P' ∨ p = 'p') := by
  match cs, h with
  | c :: f :: p :: d :: rest, h =>
    simp only [matchMarker] at h
    split at h
    · rename_i hcond
      simp only [Option.some.injEq] at h
      subst h
      simp only [Bool.and_eq_true, Bool.or_eq_true, beq_iff_eq] at hcond
      obtain ⟨⟨⟨hc, hf⟩, hp⟩, hd⟩ := hcond
      subst hd
      exact ⟨c, f, p, rfl, hc, hf, hp⟩
    · exact absurd h (by simp)
  | [], h => simp [matchMarker] at h
  | [_], h => simp [matchMarker] at h
  | [_, _], h => simp [matchMarker] at h
  | [_, _, _], h => simp [matchMarker] at h

theorem specFirstToken_none_of_no_r (cs : List Char)
    (h : ∀ x ∈ cs, x ≠ 'R' ∧ x ≠ 'r') : specFirstToken cs = none := by
  induction cs with
  | nil => rfl
  | cons c rest ih =>
    unfold specFirstToken
    have hm : matchMarker (c :: rest) = none := by
      cases hm : matchMarker (c :: rest) with
      | none => rfl
      | some r =>
        obtain ⟨c1, f, p, hcs, hc, -, -⟩ := matchMarker_some _ _ hm
        simp only [List.cons.injEq] at hcs
        obtain ⟨rfl, -⟩ := hcs
        have := h c (List.mem_cons_self _ _)
        rcases hc with hc | hc
        · exact absurd hc this.1
        · exact absurd hc this.2
    have ht : tokenAfterMarker (c :: rest) = none := by
      simp [tokenAfterMarker, hm]
    rw [ht]
    exact ih (fun x hx => h x (List.mem_cons_of_mem _ hx))

theorem trim_of_not_ws (t : List Char) (h : ∀ x ∈ t, isWhiteSpace x = false) :
    trim t = t := by
  have hdrop : ∀ l : List Char, (∀ x ∈ l, isWhiteSpace x = false) →
      l.dropWhile isWhiteSpace = l := by
    intro l hl
    cases l with
    | nil => rfl
    | cons a rest =>
      exact List.dropWhile_cons_of_neg (by simp [hl a (List.mem_cons_self _ _)])
  unfold trim
  rw [hdrop t h, hdrop t.reverse (fun x hx => h x (List.mem_reverse.mp hx)),
    List.reverse_reverse]

/-- The regex finds the token the spec's words describe. -/
theorem rfpMatch_of_specFirstToken (cs t : List Char) (h : specFirstToken cs = some t) :
    rfpMatch cs = some t := by
  induction cs with
  | nil => simp [specFirstToken] at h
  | cons c rest ih =>
    unfold specFirstToken at h
    unfold rfpMatch
    cases ht : tokenAfterMarker (c :: rest) with
    | some t1 =>
      rw [ht] at h
      simp only [Option.some.injEq] at h
      subst h
      rw [matchHere_of_token _ _ ht]
    | none =>
      rw [ht] at h
      simp only at h
      cases hm : matchMarker (c :: rest) with
      | none =>
        have hh : matchHere (c :: rest) = none := by simp [matchHere, hm]
        rw [hh]
        exact ih h
      | some r =>
        exfalso
        obtain ⟨c1, f, p, hcs, -, hf, hp⟩ := matchMarker_some _ _ hm
        simp only [List.cons.injEq] at hcs
        obtain ⟨-, rfl⟩ := hcs
        have hws : ∀ x ∈ r, isWhiteSpace x = true := by
          have hd : r.dropWhile isWhiteSpace = [] := by
            cases hd : r.dropWhile isWhiteSpace with
            | nil => rfl
            | cons y tl => simp [tokenAfterMarker, hm, hd] at ht
          exact List.dropWhile_eq_nil_iff.mp hd
        have hnone : specFirstToken (f :: p :: ':' :: r) = none := by
          apply specFirstToken_none_of_no_r
          intro x hx
          simp only [List.mem_cons] at hx
          rcases hx with rfl | rfl | rfl | hx
          · rcases hf with rfl | rfl <;> decide
          · rcases hp with rfl | rfl <;> decide
          · decide
          · have := hws x hx
            constructor
            · rintro rfl
              exact absurd this (by decide)
            · rintro rfl
              exact absurd this (by decide)
        rw [hnone] at h
        exact absurd h (by simp)

/-- C18. Title extraction takes one token: for every subject that contains `RFP:` (in
any letter case) followed by optional whitespace and at least one non-whitespace
character, the title extracted by `processVendorResponse` is the maximal run of
non-whitespace characters that follows the first such marker, the first
whitespace-delimited word after `RFP:`. -/
theorem extractTitle_first_token (subject : String) (t : List Char)
    (h : specFirstToken subject.data = some t) :
    extractTitle subject = some (String.mk t) := by
  unfold extractTitle
  rw [rfpMatch_of_specFirstToken _ _ h, Option.map_some',
    trim_of_not_ws t (specFirstToken_not_ws _ _ h)]

/-- C18 at a reply subject with a lower-case marker, several spaces and two words. -/
theorem extractTitle_first_token_witness :
    specFirstToken "Re: rfp:   Laptops now".data = some "Laptops".data ∧
    extractTitle "Re: rfp:   Laptops now" = some "Laptops" :=
  ⟨by decide,
   extractTitle_first_token "Re: rfp:   Laptops now" "Laptops".data (by decide)⟩

/-- C19. The extracted title can be empty: on the subject `RFP: ` (the marker and a
trailing space) the regex matches with the space as its group, the trimmed title is the
empty string, and the lookup by the empty regular expression returns the first RFP of
the collection, whatever its title. -/
theorem extractTitle_empty_title :
    rfpMatch "RFP: ".data = some [' '] ∧
    extractTitle "RFP: " = some "" ∧
    correlate laptopsEnv officeStore bareMarkerReply = .ok (acme, officeChairsRfp) :=
  ⟨by decide, by decide, rfl⟩

end RFD
